import Mathlib

/-
Shallow embedding of the Tetris_Local repository:
  game_logic/pieces.py, game_logic/board.py, game_logic/game_engine.py,
  networking/protocol.py, networking/client.py, networking/server.py.
Each definition mirrors the corresponding Python function; machine-level
concerns (sockets, threads, wall-clock) are made explicit parameters.
-/

/-! ## Pieces (game_logic/pieces.py) -/

inductive PieceType where
  | I | O | T | S | Z | J | L
deriving DecidableEq

/-- RGB color triple, as in the COLORS table of pieces.py. -/
abbrev Color := Nat × Nat × Nat

/-- COLORS table (pieces.py); only the seven piece colors are ever stored
on the board (GHOST/EMPTY are renderer-side and never written to cells). -/
def COLORS : PieceType → Color
  | .I => (0, 255, 255)
  | .O => (255, 255, 0)
  | .T => (128, 0, 128)
  | .S => (0, 255, 0)
  | .Z => (255, 0, 0)
  | .J => (0, 0, 255)
  | .L => (255, 165, 0)

/-- PIECES table (pieces.py): four 4x4 rotation matrices per type.
The O entry is the same matrix repeated four times, as in the source. -/
def PIECES : PieceType → List (List (List Nat))
  | .I =>
      [[[0,0,0,0],[1,1,1,1],[0,0,0,0],[0,0,0,0]],
       [[0,0,1,0],[0,0,1,0],[0,0,1,0],[0,0,1,0]],
       [[0,0,0,0],[0,0,0,0],[1,1,1,1],[0,0,0,0]],
       [[0,1,0,0],[0,1,0,0],[0,1,0,0],[0,1,0,0]]]
  | .O => List.replicate 4 [[0,1,1,0],[0,1,1,0],[0,0,0,0],[0,0,0,0]]
  | .T =>
      [[[0,1,0,0],[1,1,1,0],[0,0,0,0],[0,0,0,0]],
       [[0,1,0,0],[0,1,1,0],[0,1,0,0],[0,0,0,0]],
       [[0,0,0,0],[1,1,1,0],[0,1,0,0],[0,0,0,0]],
       [[0,1,0,0],[1,1,0,0],[0,1,0,0],[0,0,0,0]]]
  | .S =>
      [[[0,1,1,0],[1,1,0,0],[0,0,0,0],[0,0,0,0]],
       [[0,1,0,0],[0,1,1,0],[0,0,1,0],[0,0,0,0]],
       [[0,0,0,0],[0,1,1,0],[1,1,0,0],[0,0,0,0]],
       [[1,0,0,0],[1,1,0,0],[0,1,0,0],[0,0,0,0]]]
  | .Z =>
      [[[1,1,0,0],[0,1,1,0],[0,0,0,0],[0,0,0,0]],
       [[0,0,1,0],[0,1,1,0],[0,1,0,0],[0,0,0,0]],
       [[0,0,0,0],[1,1,0,0],[0,1,1,0],[0,0,0,0]],
       [[0,1,0,0],[1,1,0,0],[1,0,0,0],[0,0,0,0]]]
  | .J =>
      [[[1,0,0,0],[1,1,1,0],[0,0,0,0],[0,0,0,0]],
       [[0,1,1,0],[0,1,0,0],[0,1,0,0],[0,0,0,0]],
       [[0,0,0,0],[1,1,1,0],[0,0,1,0],[0,0,0,0]],
       [[0,1,0,0],[0,1,0,0],[1,1,0,0],[0,0,0,0]]]
  | .L =>
      [[[0,0,1,0],[1,1,1,0],[0,0,0,0],[0,0,0,0]],
       [[0,1,0,0],[0,1,0,0],[0,1,1,0],[0,0,0,0]],
       [[0,0,0,0],[1,1,1,0],[1,0,0,0],[0,0,0,0]],
       [[1,1,0,0],[0,1,0,0],[0,1,0,0],[0,0,0,0]]]

/-- A piece: type plus rotation counter (Piece.__init__ sets rotation 0;
the color attribute is derived from the type via COLORS). -/
structure Piece where
  type : PieceType
  rotation : Nat
deriving DecidableEq

namespace Piece

/-- Piece.get_shape: PIECES[self.type][self.rotation].  An out-of-range
rotation raises IndexError in Python; modelled as the empty matrix (never
reached: rotation is kept in [0,4) by the rotate operations). -/
def get_shape (p : Piece) : List (List Nat) :=
  (PIECES p.type).getD p.rotation []

/-- Piece.rotate_clockwise: rotation = (rotation + 1) % 4. -/
def rotate_clockwise (p : Piece) : Piece :=
  { p with rotation := (p.rotation + 1) % 4 }

/-- Piece.rotate_counter_clockwise: rotation = (rotation - 1) % 4 in
Python arithmetic; on naturals `(r + 3) % 4` computes the same value. -/
def rotate_counter_clockwise (p : Piece) : Piece :=
  { p with rotation := (p.rotation + 3) % 4 }

/-- Piece.get_occupied_cells: all (row, col) with a nonzero shape entry,
row-major, exactly as the nested Python loops produce them. -/
def get_occupied_cells (p : Piece) : List (Nat × Nat) :=
  (List.range 4).flatMap fun row =>
    (List.range 4).filterMap fun col =>
      if ((p.get_shape.getD row []).getD col 0) ≠ 0 then some (row, col) else none

end Piece

/-! ## Board (game_logic/board.py) -/

/-- The board grid: HEIGHT rows of WIDTH cells, a cell being `none` or a
placed piece's color. -/
abbrev Grid := List (List (Option Color))

namespace Board

def WIDTH : Nat := 10

def HEIGHT : Nat := 20

/-- A fresh empty row, `[None for _ in range(WIDTH)]`. -/
def empty_row : List (Option Color) := List.replicate WIDTH none

/-- Board.__init__ / Board.reset: the empty 20x10 grid. -/
def init_grid : Grid := List.replicate HEIGHT empty_row

/-- Board.is_valid_position: column bounds first, then row ≥ HEIGHT,
rows above the grid are skipped, in-grid cells must be empty. -/
def is_valid_position (g : Grid) (p : Piece) (x y : Int) : Bool :=
  p.get_occupied_cells.all fun cell =>
    let board_row : Int := y + cell.1
    let board_col : Int := x + cell.2
    if board_col < 0 || WIDTH ≤ board_col then false
    else if HEIGHT ≤ board_row then false
    else if board_row < 0 then true
    else ((g.getD board_row.toNat []).getD board_col.toNat none).isNone

/-- In-place cell write `grid[r][c] = v` of the Python source, as a
functional row replacement. -/
def set_cell (g : Grid) (r c : Nat) (v : Option Color) : Grid :=
  g.set r ((g.getD r []).set c v)

/-- Board.place_piece: writes the piece color into every occupied cell
that falls inside grid bounds; out-of-bounds cells are silently dropped. -/
def place_piece (g : Grid) (p : Piece) (x y : Int) : Grid :=
  p.get_occupied_cells.foldl
    (fun g cell =>
      let board_row : Int := y + cell.1
      let board_col : Int := x + cell.2
      if 0 ≤ board_row && board_row < (HEIGHT : Int)
          && 0 ≤ board_col && board_col < (WIDTH : Int) then
        set_cell g board_row.toNat board_col.toNat (some (COLORS p.type))
      else g)
    g

/-- A row is complete iff every cell is occupied
(`all(cell is not None for cell in row)`). -/
def row_complete (row : List (Option Color)) : Bool :=
  row.all fun cell => cell.isSome

/-- Board.clear_lines, exactly as written in the source: collect the
complete row indices in increasing order, then for each index in
decreasing order (`sorted(lines_to_clear, reverse=True)`) delete that row
and immediately insert a fresh empty row at the top — the insertion
happens inside the loop, before the next deletion.  Returns the new grid
and `len(lines_to_clear)`. -/
def clear_lines (g : Grid) : Grid × Nat :=
  let lines_to_clear := (List.range HEIGHT).filter fun row => row_complete (g.getD row [])
  let g2 := lines_to_clear.reverse.foldl
    (fun g row => empty_row :: g.eraseIdx row) g
  (g2, lines_to_clear.length)

/-- Board.is_game_over: any occupied cell in the top 2 rows. -/
def is_game_over (g : Grid) : Bool :=
  (List.range 2).any fun row => (g.getD row []).any fun cell => cell.isSome

/-- Board.set_state: replaces the grid wholesale with (a row-copy of) the
given state; the previous grid is discarded. -/
def set_state (_g : Grid) (state : Grid) : Grid :=
  state.map fun row => row

end Board

/-! ## Claim C1: `clear_lines` on a board with rows 0, 5 and 19 full -/

/-- A fully occupied row carrying marker color (r,0,0). -/
def c1_full_row (r : Nat) : List (Option Color) :=
  List.replicate 10 (some (r, 0, 0))

/-- A partially filled row: only column 0 occupied, marker color (r,0,0). -/
def c1_partial_row (r : Nat) : List (Option Color) :=
  some (r, 0, 0) :: List.replicate 9 none

/-- The C1 scenario board: rows 0, 5, 19 fully filled, all other rows
partially filled (distinct markers so reordering/loss is observable). -/
def c1_test_grid : Grid :=
  (List.range 20).map fun r =>
    if r = 0 ∨ r = 5 ∨ r = 19 then c1_full_row r else c1_partial_row r

/-- C1: the claim says `clear_lines` removes exactly the full rows
{0,5,19}, returns 3, leaves the top 3 rows empty and loses no
partially-filled row.  The code inserts the fresh empty row inside the
deletion loop, so after the first deletion the remaining original indices
are shifted: on this board it returns 3 but deletes original rows 19, 4
(partial — its content is lost) and a just-inserted empty row, leaving
the full original rows 0 and 5 on the board (row 0 at index 2, where the
claim requires an empty row). -/
theorem C1_clear_lines_multirow_bug :
    (Board.clear_lines c1_test_grid).2 = 3 ∧
    (Board.clear_lines c1_test_grid).1.getD 2 [] = c1_full_row 0 ∧
    Board.row_complete ((Board.clear_lines c1_test_grid).1.getD 2 []) = true ∧
    c1_partial_row 4 ∉ (Board.clear_lines c1_test_grid).1 ∧
    (Board.clear_lines c1_test_grid).1.getD 6 [] = c1_full_row 5 := by
  decide

/-! ## Claim C5: board dimensions and mutators -/

/-- The dimension invariant of the 20x10 board. -/
def dims_ok (g : Grid) : Prop :=
  g.length = Board.HEIGHT ∧ ∀ row ∈ g, row.length = Board.WIDTH

theorem foldl_preserve {α β : Type} {P : α → Prop} (f : α → β → α) (l : List β)
    (h : ∀ g a, a ∈ l → P g → P (f g a)) (g : α) (hg : P g) :
    P (l.foldl f g) := by
  induction l generalizing g with
  | nil => exact hg
  | cons b t ih =>
      exact ih (fun g a ha => h g a (List.mem_cons_of_mem _ ha))
        (f g b) (h g b (List.mem_cons_self _ _) hg)

theorem set_cell_dims (g : Grid) (r c : Nat) (v : Option Color)
    (hg : dims_ok g) : dims_ok (Board.set_cell g r c v) := by
  obtain ⟨hl, hw⟩ := hg
  refine ⟨by simpa [Board.set_cell] using hl, ?_⟩
  intro row hrow
  by_cases hr : r < g.length
  · rcases List.mem_or_eq_of_mem_set hrow with h | h
    · exact hw row h
    · subst h
      rw [List.length_set, List.getD_eq_getElem _ _ hr]
      exact hw _ (List.getElem_mem hr)
  · rw [Board.set_cell, List.set_eq_of_length_le (Nat.le_of_not_lt hr)] at hrow
    exact hw row hrow

theorem place_piece_dims (g : Grid) (p : Piece) (x y : Int)
    (hg : dims_ok g) : dims_ok (Board.place_piece g p x y) := by
  unfold Board.place_piece
  refine foldl_preserve _ _ (fun g cell _ hgd => ?_) g hg
  dsimp only
  split
  · exact set_cell_dims _ _ _ _ hgd
  · exact hgd

theorem clear_lines_dims (g : Grid) (hg : dims_ok g) :
    dims_ok (Board.clear_lines g).1 := by
  unfold Board.clear_lines
  dsimp only
  refine foldl_preserve _ _ (fun g2 row hrow hgd => ?_) g hg
  have hrow20 : row < Board.HEIGHT := by
    rw [List.mem_reverse, List.mem_filter] at hrow
    exact List.mem_range.mp hrow.1
  obtain ⟨hl, hw⟩ := hgd
  constructor
  · have : (g2.eraseIdx row).length = g2.length - 1 :=
      List.length_eraseIdx_of_lt (by omega)
    simp only [List.length_cons, this, hl]
    decide
  · intro r hr
    rcases List.mem_cons.mp hr with h | h
    · subst h
      simp [Board.empty_row, Board.WIDTH]
    · exact hw r ((List.eraseIdx_sublist g2 row).subset h)

theorem init_grid_dims : dims_ok Board.init_grid := by
  constructor
  · simp [Board.init_grid]
  · intro r hr
    rw [List.eq_of_mem_replicate hr]
    simp [Board.empty_row, Board.WIDTH]

/-- C5 (amended): the grid dimensions (height 20, width 10) are preserved
by the three mutators named in the spec — `place_piece`, `clear_lines`
and `reset` (whose result is `init_grid`, also the constructed state) —
but `set_state`, which the claim groups with the non-mutating accessors,
in fact replaces the grid wholesale (see the counterexample), so the
dimension invariant holds only for states of the right shape. -/
theorem C5_dims_preserved (g : Grid)
    (hl : g.length = Board.HEIGHT)
    (hw : ∀ row ∈ g, row.length = Board.WIDTH) :
    (∀ p x y, (Board.place_piece g p x y).length = Board.HEIGHT ∧
        ∀ row ∈ Board.place_piece g p x y, row.length = Board.WIDTH) ∧
    ((Board.clear_lines g).1.length = Board.HEIGHT ∧
        ∀ row ∈ (Board.clear_lines g).1, row.length = Board.WIDTH) ∧
    (Board.init_grid.length = Board.HEIGHT ∧
        ∀ row ∈ Board.init_grid, row.length = Board.WIDTH) ∧
    (∀ st, Board.set_state g st = st.map fun row => row) :=
  ⟨fun p x y => place_piece_dims g p x y ⟨hl, hw⟩,
   clear_lines_dims g ⟨hl, hw⟩,
   init_grid_dims,
   fun _ => rfl⟩

/-- Witness for C5_dims_preserved at the freshly constructed board and an
O piece at the spawn position. -/
theorem C5_dims_preserved_witness :
    (Board.place_piece Board.init_grid ⟨PieceType.O, 0⟩ 3 0).length = Board.HEIGHT ∧
    (Board.clear_lines Board.init_grid).1.length = Board.HEIGHT :=
  ⟨((C5_dims_preserved Board.init_grid (by decide) (by decide)).1
      ⟨PieceType.O, 0⟩ 3 0).1,
   (C5_dims_preserved Board.init_grid (by decide) (by decide)).2.1.1⟩

/-- C5 counterexample: `set_state` is a board operation outside
{place, clearLines, reset} that mutates the grid and even changes its
dimensions — on the freshly constructed 20-row board,
`set_state` with a 1x1 state leaves a 1-row grid. -/
theorem C5_set_state_mutates_grid :
    (Board.set_state Board.init_grid [[some (0, 255, 255)]]).length = 1 ∧
    Board.init_grid.length = 20 ∧
    Board.set_state Board.init_grid [[some (0, 255, 255)]] ≠ Board.init_grid := by
  decide

/-! ## Game engine (game_logic/game_engine.py) -/

/-- SCORE_VALUES table; `SCORE_VALUES.get(lines_cleared, 0)`. -/
def SCORE_VALUES : Nat → Nat
  | 1 => 100
  | 2 => 300
  | 3 => 500
  | 4 => 800
  | _ => 0

def LOCK_DELAY : ℚ := 1/2

def INITIAL_DROP_SPEED : ℚ := 1

def SPEED_INCREASE_PER_LEVEL : ℚ := 1/10

/-- The engine state (GameEngine.__init__ fields).  `rand`/`rand_idx`
model the `random.choice(piece_types)` supply as an explicit stream;
wall-clock reads (`time.time()`) are explicit ℚ parameters of the
operations that perform them. -/
structure GameEngine where
  board : Grid
  score : Nat
  lines_cleared : Nat
  level : Nat
  game_over : Bool
  paused : Bool
  current_piece : Option Piece
  piece_x : Int
  piece_y : Int
  next_pieces : List Piece
  hold_piece : Option Piece
  can_hold : Bool
  last_drop_time : ℚ
  lock_timer : Option ℚ
  combo : Nat
  rand : Nat → PieceType
  rand_idx : Nat

namespace GameEngine

/-- GameEngine._fill_piece_queue: `while len(next_pieces) < 2: append a
random piece` — the loop unrolled on the current queue length. -/
def fill_piece_queue (s : GameEngine) : GameEngine :=
  match s.next_pieces with
  | [] => { s with
      next_pieces := [⟨s.rand s.rand_idx, 0⟩, ⟨s.rand (s.rand_idx + 1), 0⟩],
      rand_idx := s.rand_idx + 2 }
  | [p] => { s with
      next_pieces := [p, ⟨s.rand s.rand_idx, 0⟩],
      rand_idx := s.rand_idx + 1 }
  | _ => s

/-- GameEngine._spawn_new_piece: pop the queue head (refilling first if
empty), refill, center at (WIDTH // 2 - 2, 0) = (3, 0), set game_over if
the spawn position is invalid, reset can_hold and the lock timer. -/
def spawn_new_piece (s : GameEngine) : GameEngine :=
  let s := if s.next_pieces.isEmpty then fill_piece_queue s else s
  match s.next_pieces with
  | [] => s
  | p :: rest =>
    let s := fill_piece_queue { s with current_piece := some p, next_pieces := rest }
    { s with
      piece_x := 3,
      piece_y := 0,
      game_over := s.game_over || !(Board.is_valid_position s.board p 3 0),
      can_hold := true,
      lock_timer := none }

/-- GameEngine.move_left. -/
def move_left (s : GameEngine) : GameEngine × Bool :=
  match s.current_piece with
  | none => (s, false)
  | some p =>
    if s.game_over || s.paused then (s, false)
    else if Board.is_valid_position s.board p (s.piece_x - 1) s.piece_y then
      ({ s with piece_x := s.piece_x - 1 }, true)
    else (s, false)

/-- GameEngine.move_right. -/
def move_right (s : GameEngine) : GameEngine × Bool :=
  match s.current_piece with
  | none => (s, false)
  | some p =>
    if s.game_over || s.paused then (s, false)
    else if Board.is_valid_position s.board p (s.piece_x + 1) s.piece_y then
      ({ s with piece_x := s.piece_x + 1 }, true)
    else (s, false)

/-- GameEngine.move_down; `now` models the `time.time()` read on the
failing branch that starts the lock-delay timer. -/
def move_down (s : GameEngine) (now : ℚ) : GameEngine × Bool :=
  match s.current_piece with
  | none => (s, false)
  | some p =>
    if s.game_over || s.paused then (s, false)
    else if Board.is_valid_position s.board p s.piece_x (s.piece_y + 1) then
      ({ s with piece_y := s.piece_y + 1, lock_timer := none }, true)
    else
      (match s.lock_timer with
       | none => { s with lock_timer := some now }
       | some _ => s, false)

/-- The fixed wall-kick offset list of GameEngine._try_wall_kicks. -/
def wall_kick_offsets : List (Int × Int) := [(1, 0), (-1, 0), (0, -1), (2, 0), (-2, 0)]

/-- The `for dx, dy in offsets` loop body of GameEngine._try_wall_kicks:
first valid offset wins and yields the shifted position. -/
def try_wall_kicks_go (g : Grid) (p : Piece) (x y : Int) :
    List (Int × Int) → Option (Int × Int)
  | [] => none
  | d :: rest =>
    if Board.is_valid_position g p (x + d.1) (y + d.2) then some (x + d.1, y + d.2)
    else try_wall_kicks_go g p x y rest

/-- GameEngine._try_wall_kicks. -/
def try_wall_kicks (g : Grid) (p : Piece) (x y : Int) : Option (Int × Int) :=
  try_wall_kicks_go g p x y wall_kick_offsets

/-- GameEngine.rotate_clockwise: rotate, validate, try kicks, else revert
(the piece is mutated forward then mutated back, as in the source). -/
def rotate_clockwise (s : GameEngine) : GameEngine × Bool :=
  match s.current_piece with
  | none => (s, false)
  | some p =>
    if s.game_over || s.paused then (s, false)
    else
      let p1 := p.rotate_clockwise
      if Board.is_valid_position s.board p1 s.piece_x s.piece_y then
        ({ s with current_piece := some p1 }, true)
      else
        match try_wall_kicks s.board p1 s.piece_x s.piece_y with
        | some d => ({ s with current_piece := some p1, piece_x := d.1, piece_y := d.2 }, true)
        | none => ({ s with current_piece := some p1.rotate_counter_clockwise }, false)

/-- GameEngine.rotate_counter_clockwise. -/
def rotate_counter_clockwise (s : GameEngine) : GameEngine × Bool :=
  match s.current_piece with
  | none => (s, false)
  | some p =>
    if s.game_over || s.paused then (s, false)
    else
      let p1 := p.rotate_counter_clockwise
      if Board.is_valid_position s.board p1 s.piece_x s.piece_y then
        ({ s with current_piece := some p1 }, true)
      else
        match try_wall_kicks s.board p1 s.piece_x s.piece_y with
        | some d => ({ s with current_piece := some p1, piece_x := d.1, piece_y := d.2 }, true)
        | none => ({ s with current_piece := some p1.rotate_clockwise }, false)

/-- GameEngine._update_score: score += (base + combo*50) * level, then
accumulate lines and recompute the level (never decreasing). -/
def update_score (s : GameEngine) (lines : Nat) : GameEngine :=
  let base_score := SCORE_VALUES lines
  let combo_bonus := s.combo * 50
  let level_multiplier := s.level
  let s := { s with
    score := s.score + (base_score + combo_bonus) * level_multiplier,
    lines_cleared := s.lines_cleared + lines }
  let new_level := s.lines_cleared / 10 + 1
  if new_level > s.level then { s with level := new_level } else s

/-- GameEngine._lock_piece: place, clear lines, score/combo update, then
game-over check or spawn.  A `None` current piece would raise in Python;
call sites guarantee a piece, modelled as the identity. -/
def lock_piece (s : GameEngine) : GameEngine :=
  match s.current_piece with
  | none => s
  | some p =>
    let b1 := Board.place_piece s.board p s.piece_x s.piece_y
    let cleared := Board.clear_lines b1
    let s := { s with board := cleared.1 }
    let s :=
      if cleared.2 > 0 then
        let s2 := update_score s cleared.2
        { s2 with combo := s2.combo + 1 }
      else { s with combo := 0 }
    if Board.is_game_over s.board then { s with game_over := true }
    else spawn_new_piece s

/-- The `while is_valid_position(piece, x, y+1)` descent loop of
GameEngine.hard_drop.  Fuel-bounded: every piece shape has an occupied
cell, so validity fails once the piece passes row HEIGHT and the chosen
fuel is never exhausted. -/
def hard_drop_go (g : Grid) (p : Piece) (x : Int) :
    Int → Nat → Nat → Int × Nat
  | y, d, 0 => (y, d)
  | y, d, fuel + 1 =>
    if Board.is_valid_position g p x (y + 1) then hard_drop_go g p x (y + 1) (d + 1) fuel
    else (y, d)

/-- GameEngine.hard_drop: descend while valid, counting cells, then lock. -/
def hard_drop (s : GameEngine) : GameEngine × Nat :=
  match s.current_piece with
  | none => (s, 0)
  | some p =>
    if s.game_over || s.paused then (s, 0)
    else
      let fuel := ((Board.HEIGHT : Int) - s.piece_y).toNat + 4
      let yd := hard_drop_go s.board p s.piece_x s.piece_y 0 fuel
      (lock_piece { s with piece_y := yd.1 }, yd.2)

/-- GameEngine.hold_current_piece. -/
def hold_current_piece (s : GameEngine) : GameEngine × Bool :=
  match s.current_piece with
  | none => (s, false)
  | some p =>
    if s.game_over || s.paused || !s.can_hold then (s, false)
    else
      match s.hold_piece with
      | none =>
        let s := spawn_new_piece { s with hold_piece := some ⟨p.type, 0⟩ }
        ({ s with can_hold := false }, true)
      | some h =>
        ({ s with
            hold_piece := some ⟨p.type, 0⟩,
            current_piece := some ⟨h.type, 0⟩,
            piece_x := 3,
            piece_y := 0,
            can_hold := false }, true)

/-- The auto-drop tail of GameEngine.update: drop interval with its 0.1
floor, then a timed down-move that resets the auto-drop clock. -/
def auto_drop (s : GameEngine) (now : ℚ) : GameEngine :=
  let drop_speed :=
    max (1/10 : ℚ) (INITIAL_DROP_SPEED - ((s.level : ℚ) - 1) * SPEED_INCREASE_PER_LEVEL)
  if now - s.last_drop_time ≥ drop_speed then
    { (move_down s now).1 with last_drop_time := now }
  else s

/-- GameEngine.update: no-op when over or paused; an expired lock timer
locks and returns; otherwise auto-drop.  `now` models `time.time()`. -/
def update (s : GameEngine) (now : ℚ) : GameEngine :=
  if s.game_over || s.paused then s
  else
    match s.lock_timer with
    | some lt => if now - lt ≥ LOCK_DELAY then lock_piece s else auto_drop s now
    | none => auto_drop s now

/-- GameEngine.toggle_pause. -/
def toggle_pause (s : GameEngine) : GameEngine :=
  if !s.game_over then { s with paused := !s.paused } else s

/-- GameEngine.__init__: fresh fields, then fill the queue and spawn.
`t0` models the `time.time()` read, `rand`/`i0` the random supply. -/
def init (rand : Nat → PieceType) (i0 : Nat) (t0 : ℚ) : GameEngine :=
  spawn_new_piece (fill_piece_queue
    { board := Board.init_grid
      score := 0
      lines_cleared := 0
      level := 1
      game_over := false
      paused := false
      current_piece := none
      piece_x := 0
      piece_y := 0
      next_pieces := []
      hold_piece := none
      can_hold := true
      last_drop_time := t0
      lock_timer := none
      combo := 0
      rand := rand
      rand_idx := i0 })

/-- GameEngine.reset: `self.__init__()` — all fields recreated; the
random supply continues and the wall clock is read afresh. -/
def reset (s : GameEngine) (t0 : ℚ) : GameEngine :=
  init s.rand s.rand_idx t0

/-- GameEngine.get_state, restricted to the serialized snapshot record
(see the Snapshot structure below for the wire shape). -/
def get_state_board (s : GameEngine) : Grid := s.board.map fun row => row

end GameEngine

/-! ## Projection lemmas for the engine operations -/

theorem fill_score (t : GameEngine) :
    (GameEngine.fill_piece_queue t).score = t.score := by
  unfold GameEngine.fill_piece_queue; split <;> rfl

theorem fill_lines (t : GameEngine) :
    (GameEngine.fill_piece_queue t).lines_cleared = t.lines_cleared := by
  unfold GameEngine.fill_piece_queue; split <;> rfl

theorem fill_level (t : GameEngine) :
    (GameEngine.fill_piece_queue t).level = t.level := by
  unfold GameEngine.fill_piece_queue; split <;> rfl

theorem fill_combo (t : GameEngine) :
    (GameEngine.fill_piece_queue t).combo = t.combo := by
  unfold GameEngine.fill_piece_queue; split <;> rfl

theorem spawn_score (t : GameEngine) :
    (GameEngine.spawn_new_piece t).score = t.score := by
  rcases h : t.next_pieces with _ | ⟨p, _ | ⟨q, _ | ⟨r, rest⟩⟩⟩ <;>
    simp [GameEngine.spawn_new_piece, GameEngine.fill_piece_queue, h]

theorem spawn_lines (t : GameEngine) :
    (GameEngine.spawn_new_piece t).lines_cleared = t.lines_cleared := by
  rcases h : t.next_pieces with _ | ⟨p, _ | ⟨q, _ | ⟨r, rest⟩⟩⟩ <;>
    simp [GameEngine.spawn_new_piece, GameEngine.fill_piece_queue, h]

theorem spawn_level (t : GameEngine) :
    (GameEngine.spawn_new_piece t).level = t.level := by
  rcases h : t.next_pieces with _ | ⟨p, _ | ⟨q, _ | ⟨r, rest⟩⟩⟩ <;>
    simp [GameEngine.spawn_new_piece, GameEngine.fill_piece_queue, h]

theorem spawn_combo (t : GameEngine) :
    (GameEngine.spawn_new_piece t).combo = t.combo := by
  rcases h : t.next_pieces with _ | ⟨p, _ | ⟨q, _ | ⟨r, rest⟩⟩⟩ <;>
    simp [GameEngine.spawn_new_piece, GameEngine.fill_piece_queue, h]

theorem update_score_score (t : GameEngine) (m : Nat) :
    (GameEngine.update_score t m).score
      = t.score + (SCORE_VALUES m + t.combo * 50) * t.level := by
  unfold GameEngine.update_score; dsimp only; split <;> rfl

theorem update_score_combo (t : GameEngine) (m : Nat) :
    (GameEngine.update_score t m).combo = t.combo := by
  unfold GameEngine.update_score; dsimp only; split <;> rfl

theorem update_score_lines (t : GameEngine) (m : Nat) :
    (GameEngine.update_score t m).lines_cleared = t.lines_cleared + m := by
  unfold GameEngine.update_score; dsimp only; split <;> rfl

theorem update_score_level_le (t : GameEngine) (m : Nat) :
    t.level ≤ (GameEngine.update_score t m).level := by
  unfold GameEngine.update_score; dsimp only; split
  · next h => exact Nat.le_of_lt h
  · exact Nat.le_refl _

/-! ## Claim C2: scoring on lock -/

/-- C2: locking a piece that clears n lines with n in {1,2,3,4} adds
exactly (SCORE_VALUES n + combo*50) * level to the score — combo and
level taken before this lock's scoring update — and then increments the
combo; a lock that clears no lines leaves the score unchanged and resets
the combo to 0. -/
theorem if_go_spawn_score (c : Prop) [Decidable c] (t : GameEngine) :
    (if c then { t with game_over := true } else GameEngine.spawn_new_piece t).score
      = t.score := by
  split
  · rfl
  · exact spawn_score t

theorem if_go_spawn_combo (c : Prop) [Decidable c] (t : GameEngine) :
    (if c then { t with game_over := true } else GameEngine.spawn_new_piece t).combo
      = t.combo := by
  split
  · rfl
  · exact spawn_combo t

theorem C2_lock_scoring (s : GameEngine) (p : Piece) (n : Nat)
    (hp : s.current_piece = some p)
    (hn : (Board.clear_lines (Board.place_piece s.board p s.piece_x s.piece_y)).2 = n) :
    (1 ≤ n → n ≤ 4 →
      (GameEngine.lock_piece s).score
          = s.score + (SCORE_VALUES n + s.combo * 50) * s.level ∧
      (GameEngine.lock_piece s).combo = s.combo + 1) ∧
    (n = 0 →
      (GameEngine.lock_piece s).score = s.score ∧
      (GameEngine.lock_piece s).combo = 0) := by
  rcases hC : Board.clear_lines (Board.place_piece s.board p s.piece_x s.piece_y)
    with ⟨b2, m⟩
  rw [hC] at hn
  dsimp only at hn
  subst hn
  constructor
  · intro h1 _h4
    simp only [GameEngine.lock_piece, hp, hC]
    rw [if_pos (by omega : m > 0)]
    rw [if_go_spawn_score, if_go_spawn_combo]
    dsimp only
    rw [update_score_score, update_score_combo]
    exact ⟨rfl, rfl⟩
  · intro h0
    subst h0
    simp only [GameEngine.lock_piece, hp, hC]
    rw [if_neg (by omega : ¬ (0 > 0))]
    rw [if_go_spawn_score, if_go_spawn_combo]
    exact ⟨rfl, rfl⟩

/-- Row with a two-cell gap at columns 4 and 5 (where an O piece at
x = 3 lands), all other cells occupied. -/
def c2_gap_row : List (Option Color) :=
  (List.range 10).map fun c => if c = 4 ∨ c = 5 then none else some (255, 255, 0)

/-- Board whose bottom two rows are complete except for the O-gap. -/
def c2_board : Grid :=
  (List.range 20).map fun r => if 18 ≤ r then c2_gap_row else Board.empty_row

/-- Engine state about to lock an O piece into the double-line gap at
level 1 with combo 0. -/
def c2_state : GameEngine where
  board := c2_board
  score := 0
  lines_cleared := 0
  level := 1
  game_over := false
  paused := false
  current_piece := some ⟨PieceType.O, 0⟩
  piece_x := 3
  piece_y := 18
  next_pieces := [⟨PieceType.O, 0⟩, ⟨PieceType.O, 0⟩]
  hold_piece := none
  can_hold := true
  last_drop_time := 0
  lock_timer := none
  combo := 0
  rand := fun _ => PieceType.O
  rand_idx := 0

/-- The same lock scenario immediately after a first 2-line clear:
combo is now 1 and 300 points are on the board. -/
def c2_state_combo1 : GameEngine :=
  { c2_state with score := 300, combo := 1, lines_cleared := 2 }

/-- Witness for C2_lock_scoring: a 2-line clear at level 1 with combo 0
awards exactly 300 points, and the immediately following 2-line clear
(combo 1) awards exactly 350 more. -/
theorem C2_lock_scoring_witness :
    (GameEngine.lock_piece c2_state).score = 300 ∧
    (GameEngine.lock_piece c2_state).combo = 1 ∧
    (GameEngine.lock_piece c2_state_combo1).score = 650 := by
  refine ⟨?_, ?_, ?_⟩
  · have h := ((C2_lock_scoring c2_state ⟨PieceType.O, 0⟩ 2 rfl (by decide)).1
      (by decide) (by decide)).1
    rw [h]; decide
  · exact ((C2_lock_scoring c2_state ⟨PieceType.O, 0⟩ 2 rfl (by decide)).1
      (by decide) (by decide)).2
  · have h := ((C2_lock_scoring c2_state_combo1 ⟨PieceType.O, 0⟩ 2 rfl (by decide)).1
      (by decide) (by decide)).1
    rw [h]; decide

/-! ## Claim C4: rotation with wall kicks -/

theorem try_wall_kicks_go_eq_find (g : Grid) (p : Piece) (x y : Int)
    (l : List (Int × Int)) :
    GameEngine.try_wall_kicks_go g p x y l
      = (l.find? fun d => Board.is_valid_position g p (x + d.1) (y + d.2)).map
          fun d => (x + d.1, y + d.2) := by
  induction l with
  | nil => rfl
  | cons d rest ih =>
    by_cases h : Board.is_valid_position g p (x + d.1) (y + d.2)
    · simp [GameEngine.try_wall_kicks_go, List.find?_cons, h]
    · simp [GameEngine.try_wall_kicks_go, List.find?_cons, h, ih]

/-- The spec's description of a rotation action (either direction), for
comparison with the engine code: advance the rotation state modulo 4;
if the new orientation is invalid at the current position, probe the
offsets (+1,0), (-1,0), (0,-1), (+2,0), (-2,0) in exactly that order
against the new rotation and commit the first valid one; if none is
valid, leave the state exactly as before and report failure. -/
def spec_rotate (advance : Piece → Piece) (s : GameEngine) (p : Piece) :
    GameEngine × Bool :=
  let p1 := advance p
  if Board.is_valid_position s.board p1 s.piece_x s.piece_y then
    ({ s with current_piece := some p1 }, true)
  else
    match GameEngine.wall_kick_offsets.find? (fun d =>
        Board.is_valid_position s.board p1 (s.piece_x + d.1) (s.piece_y + d.2)) with
    | some d =>
      ({ s with
          current_piece := some p1,
          piece_x := s.piece_x + d.1,
          piece_y := s.piece_y + d.2 }, true)
    | none => (s, false)

/-- C4: in a live state (not over, not paused, with a current piece whose
rotation counter is in range), both rotation actions behave exactly as
the spec describes: rotation advanced mod 4, the fixed kick offsets
probed in order against the new rotation with the first valid one
committed, and a full revert (rotation and position both unchanged) with
failure when no probe validates. -/
theorem C4_rotate_wall_kicks (s : GameEngine) (p : Piece)
    (hgo : s.game_over = false) (hpa : s.paused = false)
    (hp : s.current_piece = some p) (hr : p.rotation < 4) :
    GameEngine.rotate_clockwise s = spec_rotate Piece.rotate_clockwise s p ∧
    GameEngine.rotate_counter_clockwise s = spec_rotate Piece.rotate_counter_clockwise s p := by
  have hguard : ¬ ((s.game_over || s.paused) = true) := by simp [hgo, hpa]
  constructor
  · simp only [GameEngine.rotate_clockwise, spec_rotate, hp]
    rw [if_neg hguard]
    by_cases hv : Board.is_valid_position s.board p.rotate_clockwise s.piece_x s.piece_y
    · simp [hv]
    · rw [if_neg hv, if_neg hv]
      rw [GameEngine.try_wall_kicks, try_wall_kicks_go_eq_find]
      cases hf : List.find?
          (fun d => Board.is_valid_position s.board p.rotate_clockwise
            (s.piece_x + d.1) (s.piece_y + d.2)) GameEngine.wall_kick_offsets with
      | none =>
        have hrot : ((p.rotation + 1) % 4 + 3) % 4 = p.rotation := by omega
        have hr2 : (p.rotate_clockwise).rotate_counter_clockwise = p := by
          simp only [Piece.rotate_clockwise, Piece.rotate_counter_clockwise, hrot]
        simp only [hf, Option.map_none']
        rw [hr2, ← hp]
      | some d =>
        simp [hf]
  · simp only [GameEngine.rotate_counter_clockwise, spec_rotate, hp]
    rw [if_neg hguard]
    by_cases hv : Board.is_valid_position s.board p.rotate_counter_clockwise s.piece_x s.piece_y
    · simp [hv]
    · rw [if_neg hv, if_neg hv]
      rw [GameEngine.try_wall_kicks, try_wall_kicks_go_eq_find]
      cases hf : List.find?
          (fun d => Board.is_valid_position s.board p.rotate_counter_clockwise
            (s.piece_x + d.1) (s.piece_y + d.2)) GameEngine.wall_kick_offsets with
      | none =>
        have hrot : ((p.rotation + 3) % 4 + 1) % 4 = p.rotation := by omega
        have hr2 : (p.rotate_counter_clockwise).rotate_clockwise = p := by
          simp only [Piece.rotate_clockwise, Piece.rotate_counter_clockwise, hrot]
        simp only [hf, Option.map_none']
        rw [hr2, ← hp]
      | some d =>
        simp [hf]

/-- The fresh engine at time 0 with a constant T supply, used to
instantiate C4. -/
def c4_state : GameEngine := GameEngine.init (fun _ => PieceType.T) 0 0

/-- Witness for C4_rotate_wall_kicks at the freshly spawned T piece. -/
theorem C4_rotate_wall_kicks_witness :
    GameEngine.rotate_clockwise c4_state
        = spec_rotate Piece.rotate_clockwise c4_state ⟨PieceType.T, 0⟩ ∧
    GameEngine.rotate_counter_clockwise c4_state
        = spec_rotate Piece.rotate_counter_clockwise c4_state ⟨PieceType.T, 0⟩ :=
  C4_rotate_wall_kicks c4_state ⟨PieceType.T, 0⟩ (by decide) (by decide)
    (by decide) (by decide)

/-! ## Claim C8: hold -/

theorem fill_current (t : GameEngine) :
    (GameEngine.fill_piece_queue t).current_piece = t.current_piece := by
  unfold GameEngine.fill_piece_queue; split <;> rfl

theorem fill_hold (t : GameEngine) :
    (GameEngine.fill_piece_queue t).hold_piece = t.hold_piece := by
  unfold GameEngine.fill_piece_queue; split <;> rfl

theorem spawn_can_hold (t : GameEngine) :
    (GameEngine.spawn_new_piece t).can_hold = true := by
  rcases h : t.next_pieces with _ | ⟨p, _ | ⟨q, _ | ⟨r, rest⟩⟩⟩ <;>
    simp [GameEngine.spawn_new_piece, GameEngine.fill_piece_queue, h]

theorem spawn_hold (t : GameEngine) :
    (GameEngine.spawn_new_piece t).hold_piece = t.hold_piece := by
  rcases h : t.next_pieces with _ | ⟨p, _ | ⟨q, _ | ⟨r, rest⟩⟩⟩ <;>
    simp [GameEngine.spawn_new_piece, GameEngine.fill_piece_queue, h]

theorem spawn_current_of_cons (t : GameEngine) (q0 : Piece) (qrest : List Piece)
    (hq : t.next_pieces = q0 :: qrest) :
    (GameEngine.spawn_new_piece t).current_piece = some q0 := by
  rcases qrest with _ | ⟨q1, _ | ⟨q2, qrest3⟩⟩ <;>
    simp [GameEngine.spawn_new_piece, GameEngine.fill_piece_queue, hq]

/-- C8: with the game live, canHold true and a current piece present:
a first hold (no held piece) stores a fresh rotation-0 piece of the
active kind and spawns the queue head as the new active piece; a
subsequent hold swaps held and active kinds with both rotations reset to
0 and the swapped-in piece re-centered at the spawn position (3, 0);
after either hold canHold is false and an immediate second hold is
rejected, while any spawn resets canHold to true. -/
theorem C8_hold_exchange (s : GameEngine) (p q0 : Piece) (qrest : List Piece)
    (hgo : s.game_over = false) (hpa : s.paused = false)
    (hch : s.can_hold = true) (hp : s.current_piece = some p)
    (hq : s.next_pieces = q0 :: qrest) :
    (s.hold_piece = none →
      (GameEngine.hold_current_piece s).1.hold_piece = some ⟨p.type, 0⟩ ∧
      (GameEngine.hold_current_piece s).1.current_piece = some q0 ∧
      (GameEngine.hold_current_piece s).1.can_hold = false ∧
      (GameEngine.hold_current_piece s).2 = true ∧
      GameEngine.hold_current_piece (GameEngine.hold_current_piece s).1
        = ((GameEngine.hold_current_piece s).1, false)) ∧
    (∀ h0 : Piece, s.hold_piece = some h0 →
      (GameEngine.hold_current_piece s).1.hold_piece = some ⟨p.type, 0⟩ ∧
      (GameEngine.hold_current_piece s).1.current_piece = some ⟨h0.type, 0⟩ ∧
      (GameEngine.hold_current_piece s).1.piece_x = 3 ∧
      (GameEngine.hold_current_piece s).1.piece_y = 0 ∧
      (GameEngine.hold_current_piece s).1.can_hold = false ∧
      (GameEngine.hold_current_piece s).2 = true ∧
      GameEngine.hold_current_piece (GameEngine.hold_current_piece s).1
        = ((GameEngine.hold_current_piece s).1, false)) ∧
    (∀ t : GameEngine, (GameEngine.spawn_new_piece t).can_hold = true) := by
  have hguard : ¬ ((s.game_over || s.paused || !s.can_hold) = true) := by
    simp [hgo, hpa, hch]
  refine ⟨?_, ?_, spawn_can_hold⟩
  · intro hh
    simp only [GameEngine.hold_current_piece, hp]
    rw [if_neg hguard]
    simp only [hh]
    have hcur : (GameEngine.spawn_new_piece
        { s with current_piece := some p, hold_piece := some ⟨p.type, 0⟩ }).current_piece
        = some q0 :=
      spawn_current_of_cons _ q0 qrest hq
    have hhold : (GameEngine.spawn_new_piece
        { s with current_piece := some p, hold_piece := some ⟨p.type, 0⟩ }).hold_piece
        = some ⟨p.type, 0⟩ :=
      spawn_hold _
    refine ⟨hhold, hcur, by trivial, by trivial, ?_⟩
    simp [GameEngine.hold_current_piece, hcur]
  · intro h0 hh
    simp only [GameEngine.hold_current_piece, hp]
    rw [if_neg hguard]
    simp only [hh]
    refine ⟨by trivial, by trivial, by trivial, by trivial, by trivial, by trivial, ?_⟩
    simp [GameEngine.hold_current_piece]

/-- Fresh engine with a constant J supply, for the C8 witness. -/
def c8_state : GameEngine := GameEngine.init (fun _ => PieceType.J) 0 0

/-- The same engine but already holding an L piece with rotation 2, so a
hold must swap and reset both rotations. -/
def c8_state2 : GameEngine := { c8_state with hold_piece := some ⟨PieceType.L, 2⟩ }

/-- Witness for C8_hold_exchange: first-ever hold stores the active J and
rejects an immediate second hold; a swap hold brings back the held L at
rotation 0. -/
theorem C8_hold_exchange_witness :
    (GameEngine.hold_current_piece c8_state).1.hold_piece = some ⟨PieceType.J, 0⟩ ∧
    (GameEngine.hold_current_piece c8_state).1.can_hold = false ∧
    GameEngine.hold_current_piece (GameEngine.hold_current_piece c8_state).1
      = ((GameEngine.hold_current_piece c8_state).1, false) ∧
    (GameEngine.hold_current_piece c8_state2).1.current_piece = some ⟨PieceType.L, 0⟩ := by
  have h1 := (C8_hold_exchange c8_state ⟨PieceType.J, 0⟩ ⟨PieceType.J, 0⟩
    [⟨PieceType.J, 0⟩] (by decide) (by decide) (by decide) (by decide) (by decide)).1
    (by decide)
  have h2 := ((C8_hold_exchange c8_state2 ⟨PieceType.J, 0⟩ ⟨PieceType.J, 0⟩
    [⟨PieceType.J, 0⟩] (by decide) (by decide) (by decide) (by decide) (by decide)).2.1)
    ⟨PieceType.L, 2⟩ (by decide)
  exact ⟨h1.1, h1.2.2.1, h1.2.2.2.2, h2.2.1⟩

/-! ## Claim C9: monotone counters -/

/-- score, total lines cleared and level of `a` are all at most those of
`b`. -/
@[reducible] def counters_le (a b : GameEngine) : Prop :=
  a.score ≤ b.score ∧ a.lines_cleared ≤ b.lines_cleared ∧ a.level ≤ b.level

theorem counters_le_rfl (t : GameEngine) : counters_le t t :=
  ⟨Nat.le_refl _, Nat.le_refl _, Nat.le_refl _⟩

theorem counters_le_trans {a b c : GameEngine}
    (h1 : counters_le a b) (h2 : counters_le b c) : counters_le a c :=
  ⟨h1.1.trans h2.1, h1.2.1.trans h2.2.1, h1.2.2.trans h2.2.2⟩

theorem update_score_counters (t : GameEngine) (m : Nat) :
    counters_le t (GameEngine.update_score t m) :=
  ⟨by rw [update_score_score]; exact Nat.le_add_right _ _,
   by rw [update_score_lines]; exact Nat.le_add_right _ _,
   update_score_level_le t m⟩

theorem spawn_counters (t : GameEngine) :
    counters_le t (GameEngine.spawn_new_piece t) :=
  ⟨Nat.le_of_eq (spawn_score t).symm, Nat.le_of_eq (spawn_lines t).symm,
   Nat.le_of_eq (spawn_level t).symm⟩

theorem lock_tail_counters (c : Prop) [Decidable c] (t : GameEngine) :
    counters_le t (if c then { t with game_over := true } else GameEngine.spawn_new_piece t) := by
  split
  · exact counters_le_rfl t
  · exact spawn_counters t

theorem combo_bump_counters (u t : GameEngine) (m : Nat) (h : counters_le u t) :
    counters_le u
      { GameEngine.update_score t m with combo := (GameEngine.update_score t m).combo + 1 } :=
  counters_le_trans h
    ⟨(update_score_counters t m).1, (update_score_counters t m).2.1,
     (update_score_counters t m).2.2⟩

theorem lock_piece_counters (s : GameEngine) :
    counters_le s (GameEngine.lock_piece s) := by
  unfold GameEngine.lock_piece
  cases s.current_piece with
  | none => exact counters_le_rfl s
  | some p =>
    dsimp only
    refine counters_le_trans ?_ (lock_tail_counters _ _)
    split
    · exact combo_bump_counters s _ _ ⟨Nat.le_refl _, Nat.le_refl _, Nat.le_refl _⟩
    · exact counters_le_rfl _

theorem move_left_counters (s : GameEngine) :
    counters_le s (GameEngine.move_left s).1 := by
  unfold GameEngine.move_left
  cases s.current_piece with
  | none => exact counters_le_rfl s
  | some p =>
    dsimp only
    split
    · exact counters_le_rfl s
    · split
      · exact counters_le_rfl _
      · exact counters_le_rfl _

theorem move_right_counters (s : GameEngine) :
    counters_le s (GameEngine.move_right s).1 := by
  unfold GameEngine.move_right
  cases s.current_piece with
  | none => exact counters_le_rfl s
  | some p =>
    dsimp only
    split
    · exact counters_le_rfl s
    · split
      · exact counters_le_rfl _
      · exact counters_le_rfl _

theorem move_down_counters (s : GameEngine) (now : ℚ) :
    counters_le s (GameEngine.move_down s now).1 := by
  unfold GameEngine.move_down
  cases s.current_piece with
  | none => exact counters_le_rfl s
  | some p =>
    dsimp only
    split
    · exact counters_le_rfl s
    · split
      · exact counters_le_rfl _
      · split <;> exact counters_le_rfl _

theorem rotate_cw_counters (s : GameEngine) :
    counters_le s (GameEngine.rotate_clockwise s).1 := by
  unfold GameEngine.rotate_clockwise
  cases s.current_piece with
  | none => exact counters_le_rfl s
  | some p =>
    dsimp only
    split
    · exact counters_le_rfl s
    · split
      · exact counters_le_rfl _
      · split <;> exact counters_le_rfl _

theorem rotate_ccw_counters (s : GameEngine) :
    counters_le s (GameEngine.rotate_counter_clockwise s).1 := by
  unfold GameEngine.rotate_counter_clockwise
  cases s.current_piece with
  | none => exact counters_le_rfl s
  | some p =>
    dsimp only
    split
    · exact counters_le_rfl s
    · split
      · exact counters_le_rfl _
      · split <;> exact counters_le_rfl _

theorem lock_of_counters (u t : GameEngine) (h : counters_le u t) :
    counters_le u (GameEngine.lock_piece t) :=
  counters_le_trans h (lock_piece_counters t)

theorem hold_spawn_counters (u t : GameEngine) (h : counters_le u t) :
    counters_le u { GameEngine.spawn_new_piece t with can_hold := false } :=
  counters_le_trans h
    ⟨(spawn_counters t).1, (spawn_counters t).2.1, (spawn_counters t).2.2⟩

set_option maxHeartbeats 2000000 in
theorem hard_drop_counters (s : GameEngine) :
    counters_le s (GameEngine.hard_drop s).1 := by
  unfold GameEngine.hard_drop
  cases s.current_piece with
  | none => exact counters_le_rfl s
  | some p =>
    dsimp only
    split
    · exact counters_le_rfl s
    · set yd := GameEngine.hard_drop_go s.board p s.piece_x s.piece_y 0
        (((Board.HEIGHT : Int) - s.piece_y).toNat + 4)
      exact lock_of_counters s { s with current_piece := some p, piece_y := yd.1 }
        ⟨Nat.le_refl _, Nat.le_refl _, Nat.le_refl _⟩

theorem hold_counters (s : GameEngine) :
    counters_le s (GameEngine.hold_current_piece s).1 := by
  unfold GameEngine.hold_current_piece
  cases s.current_piece with
  | none => exact counters_le_rfl s
  | some p =>
    dsimp only
    split
    · exact counters_le_rfl s
    · split
      · exact hold_spawn_counters s _ ⟨Nat.le_refl _, Nat.le_refl _, Nat.le_refl _⟩
      · exact counters_le_rfl _

theorem auto_drop_counters (s : GameEngine) (now : ℚ) :
    counters_le s (GameEngine.auto_drop s now) := by
  unfold GameEngine.auto_drop
  dsimp only
  split
  · exact move_down_counters s now
  · exact counters_le_rfl s

theorem update_counters (s : GameEngine) (now : ℚ) :
    counters_le s (GameEngine.update s now) := by
  unfold GameEngine.update
  split
  · exact counters_le_rfl s
  · split
    · split
      · exact lock_piece_counters s
      · exact auto_drop_counters s now
    · exact auto_drop_counters s now

theorem toggle_pause_counters (s : GameEngine) :
    counters_le s (GameEngine.toggle_pause s) := by
  unfold GameEngine.toggle_pause
  split <;> exact counters_le_rfl _

/-- A player-facing engine operation (every public mutator of the engine
other than reset), with explicit wall-clock arguments where the source
reads `time.time()`. -/
inductive EngineAct where
  | move_left
  | move_right
  | move_down (now : ℚ)
  | rotate_cw
  | rotate_ccw
  | hard_drop
  | hold
  | toggle_pause
  | tick (now : ℚ)

/-- Apply one engine operation. -/
def engine_step (s : GameEngine) : EngineAct → GameEngine
  | .move_left => (GameEngine.move_left s).1
  | .move_right => (GameEngine.move_right s).1
  | .move_down now => (GameEngine.move_down s now).1
  | .rotate_cw => (GameEngine.rotate_clockwise s).1
  | .rotate_ccw => (GameEngine.rotate_counter_clockwise s).1
  | .hard_drop => (GameEngine.hard_drop s).1
  | .hold => (GameEngine.hold_current_piece s).1
  | .toggle_pause => GameEngine.toggle_pause s
  | .tick now => GameEngine.update s now

/-- Apply a sequence of engine operations. -/
def engine_run (s : GameEngine) (l : List EngineAct) : GameEngine :=
  l.foldl engine_step s

theorem engine_step_counters (s : GameEngine) (a : EngineAct) :
    counters_le s (engine_step s a) := by
  cases a with
  | move_left => exact move_left_counters s
  | move_right => exact move_right_counters s
  | move_down now => exact move_down_counters s now
  | rotate_cw => exact rotate_cw_counters s
  | rotate_ccw => exact rotate_ccw_counters s
  | hard_drop => exact hard_drop_counters s
  | hold => exact hold_counters s
  | toggle_pause => exact toggle_pause_counters s
  | tick now => exact update_counters s now

/-- C9 (amended): score, total lines cleared and level are non-decreasing
across any sequence of engine operations other than reset; reset recreates
the initial state and so sends all three counters back to their initial
values (see the counterexample). -/
theorem C9_counters_monotone_without_reset (s : GameEngine) (l : List EngineAct) :
    counters_le s (engine_run s l) := by
  induction l generalizing s with
  | nil => exact counters_le_rfl s
  | cons a t ih =>
    exact counters_le_trans (engine_step_counters s a) (ih (engine_step s a))

/-- Constant O-piece supply for the C9 counterexample. -/
def c9_rand : Nat → PieceType := fun _ => PieceType.O

/-- Fresh engine for the C9 counterexample. -/
def c9_engine : GameEngine := GameEngine.init c9_rand 0 0

/-- Five O pieces hard-dropped side by side fill the bottom two rows,
scoring a 300-point double clear. -/
def c9_actions : List EngineAct :=
  [.move_left, .move_left, .move_left, .move_left, .hard_drop,
   .move_left, .move_left, .hard_drop,
   .hard_drop,
   .move_right, .move_right, .hard_drop,
   .move_right, .move_right, .move_right, .move_right, .hard_drop]

/-- C9 counterexample: after a 300-point double clear, the engine
operation reset drops the score back to 0 — score (and likewise lines
and level) is not non-decreasing across sequences that include reset. -/
theorem C9_reset_decreases_score :
    (engine_run c9_engine c9_actions).score = 300 ∧
    ((engine_run c9_engine c9_actions).reset 0).score = 0 ∧
    ¬ (engine_run c9_engine c9_actions).score
        ≤ ((engine_run c9_engine c9_actions).reset 0).score := by
  decide

/-! ## JSON values (the objects handled by json.dumps / json.loads in
networking/protocol.py).  The snapshots exchanged by this program contain
only null, booleans, integers, strings, arrays and objects — no floats —
so numbers are modelled as integers; the advisory `timestamp` float is
modelled as an integer timestamp. -/

inductive JVal where
  | null
  | bool (b : Bool)
  | num (n : Int)
  | str (s : String)
  | arr (l : List JVal)
  | obj (l : List (String × JVal))

/-- Opening brace character, written numerically. -/
def lbraceChar : Char := Char.ofNat 123

/-- Closing brace character, written numerically. -/
def rbraceChar : Char := Char.ofNat 125

/-- Decimal digit character. -/
def digitChar (d : Nat) : Char :=
  match d with
  | 0 => '0' | 1 => '1' | 2 => '2' | 3 => '3' | 4 => '4'
  | 5 => '5' | 6 => '6' | 7 => '7' | 8 => '8' | _ => '9'

/-- Decimal digits of a natural number, most significant first (the
digits `repr(n)` produces). -/
def natChars (n : Nat) : List Char :=
  if n < 10 then [digitChar n]
  else natChars (n / 10) ++ [digitChar (n % 10)]
termination_by n
decreasing_by exact Nat.div_lt_self (by omega) (by omega)

/-- Decimal representation of an integer, as json.dumps emits it. -/
def intChars (n : Int) : List Char :=
  if n < 0 then '-' :: natChars n.natAbs else natChars n.toNat

mutual

/-- json.dumps with its default separators: `", "` between items and
`": "` after keys; strings are emitted verbatim (the strings this
program serializes contain no characters that need escaping). -/
def encJ : JVal → List Char
  | .null => 'n' :: ['u', 'l', 'l']
  | .bool true => 't' :: ['r', 'u', 'e']
  | .bool false => 'f' :: ['a', 'l', 's', 'e']
  | .num n => intChars n
  | .str s => '"' :: (s.data ++ ['"'])
  | .arr l => '[' :: (encElems l ++ [']'])
  | .obj l => lbraceChar :: (encMems l ++ [rbraceChar])

/-- Array items joined by `", "`. -/
def encElems : List JVal → List Char
  | [] => []
  | [x] => encJ x
  | x :: xs => encJ x ++ ',' :: ' ' :: encElems xs

/-- Object members joined by `", "`. -/
def encMems : List (String × JVal) → List Char
  | [] => []
  | [kv] => '"' :: (kv.1.data ++ '"' :: ':' :: ' ' :: encJ kv.2)
  | kv :: xs =>
    ('"' :: (kv.1.data ++ '"' :: ':' :: ' ' :: encJ kv.2)) ++ ',' :: ' ' :: encMems xs

end

def isDigitChar (c : Char) : Bool := 48 ≤ c.toNat && c.toNat ≤ 57

def digitVal (c : Char) : Nat := c.toNat - 48

/-- Longest digit run at the head of the input. -/
def takeDigits : List Char → List Char × List Char
  | [] => ([], [])
  | c :: cs =>
    if isDigitChar c then
      let r := takeDigits cs
      (c :: r.1, r.2)
    else ([], c :: cs)

def digitsToNat (l : List Char) : Nat :=
  l.foldl (fun a c => a * 10 + digitVal c) 0

/-- Parse a natural number literal (at least one digit). -/
def parseNatTok (cs : List Char) : Option (Nat × List Char) :=
  let r := takeDigits cs
  if r.1.isEmpty then none else some (digitsToNat r.1, r.2)

/-- Parse a string body up to the closing quote.  Escape sequences are
not modelled: the strings this protocol emits contain no backslash. -/
def parseStrBody : List Char → Option (List Char × List Char)
  | [] => none
  | c :: cs =>
    if c = '"' then some ([], cs)
    else if c = '\\' then none
    else (parseStrBody cs).map fun r => (c :: r.1, r.2)

def skipSpaces (cs : List Char) : List Char := cs.dropWhile fun c => c = ' '

mutual

/-- Recursive-descent JSON parser modelling json.loads on the grammar
this protocol uses; the fuel argument only bounds recursion depth and is
chosen larger than the input length at the call site. -/
def parseJ : Nat → List Char → Option (JVal × List Char)
  | 0, _ => none
  | fuel + 1, cs =>
    match skipSpaces cs with
    | [] => none
    | c :: r =>
      if isDigitChar c then
        (parseNatTok (c :: r)).map fun q => (.num (q.1 : Int), q.2)
      else if c = '-' then
        (parseNatTok r).map fun q => (.num (-(q.1 : Int)), q.2)
      else if c = '"' then
        (parseStrBody r).map fun q => (.str (String.mk q.1), q.2)
      else if c = '[' then parseElems fuel r
      else if c = lbraceChar then parseMems fuel r
      else
        match c :: r with
        | 'n' :: 'u' :: 'l' :: 'l' :: r2 => some (.null, r2)
        | 't' :: 'r' :: 'u' :: 'e' :: r2 => some (.bool true, r2)
        | 'f' :: 'a' :: 'l' :: 's' :: 'e' :: r2 => some (.bool false, r2)
        | _ => none

/-- After `[`: empty array or first element then the element tail. -/
def parseElems : Nat → List Char → Option (JVal × List Char)
  | 0, _ => none
  | fuel + 1, cs =>
    match skipSpaces cs with
    | [] => none
    | c :: r =>
      if c = ']' then some (.arr [], r)
      else
        match parseJ fuel (c :: r) with
        | none => none
        | some (v, r2) =>
          match parseElemsRest fuel r2 with
          | none => none
          | some (vs, r3) => some (.arr (v :: vs), r3)

/-- After one array element: `]` ends, `,` continues. -/
def parseElemsRest : Nat → List Char → Option (List JVal × List Char)
  | 0, _ => none
  | fuel + 1, cs =>
    match skipSpaces cs with
    | [] => none
    | c :: r =>
      if c = ']' then some ([], r)
      else if c = ',' then
        match parseJ fuel r with
        | none => none
        | some (v, r2) =>
          match parseElemsRest fuel r2 with
          | none => none
          | some (vs, r3) => some (v :: vs, r3)
      else none

/-- After `{`: empty object or first member then the member tail. -/
def parseMems : Nat → List Char → Option (JVal × List Char)
  | 0, _ => none
  | fuel + 1, cs =>
    match skipSpaces cs with
    | [] => none
    | c :: r =>
      if c = rbraceChar then some (.obj [], r)
      else if c = '"' then
        match parseMem fuel r with
        | none => none
        | some (kv, r2) =>
          match parseMemsRest fuel r2 with
          | none => none
          | some (kvs, r3) => some (.obj (kv :: kvs), r3)
      else none

/-- A member after its opening quote: key, `:`, value. -/
def parseMem : Nat → List Char → Option ((String × JVal) × List Char)
  | 0, _ => none
  | fuel + 1, r =>
    match parseStrBody r with
    | none => none
    | some (k, r1) =>
      match skipSpaces r1 with
      | ':' :: r2 =>
        match parseJ fuel r2 with
        | none => none
        | some (v, r3) => some ((String.mk k, v), r3)
      | _ => none

/-- After one object member: closing brace ends, `,` plus a quoted key
continues. -/
def parseMemsRest : Nat → List Char → Option (List (String × JVal) × List Char)
  | 0, _ => none
  | fuel + 1, cs =>
    match skipSpaces cs with
    | [] => none
    | c :: r =>
      if c = rbraceChar then some ([], r)
      else if c = ',' then
        match skipSpaces r with
        | '"' :: r2 =>
          match parseMem fuel r2 with
          | none => none
          | some (kv, r3) =>
            match parseMemsRest fuel r3 with
            | none => none
            | some (kvs, r4) => some (kv :: kvs, r4)
        | _ => none
      else none

end

/-- json.loads: parse one value, allow trailing whitespace only. -/
def json_loads (cs : List Char) : Option JVal :=
  match parseJ (cs.length + 1) cs with
  | none => none
  | some (v, r) => if (skipSpaces r).isEmpty then some v else none

/-! ## Round-trip lemmas for the JSON layer -/

/-- The continuation after a numeric literal must not start with a digit
(inside encoded messages it is `,`, `]`, a closing brace, or the end). -/
def headNonDigit (l : List Char) : Prop :=
  match l with
  | [] => True
  | c :: _ => isDigitChar c = false

theorem digitChar_isDigit (d : Nat) : isDigitChar (digitChar d) = true := by
  match d with
  | 0 | 1 | 2 | 3 | 4 | 5 | 6 | 7 | 8 => rfl
  | n + 9 => rfl

theorem digitChar_ascii (d : Nat) : (digitChar d).toNat < 128 := by
  match d with
  | 0 | 1 | 2 | 3 | 4 | 5 | 6 | 7 | 8 => decide
  | n + 9 =>
    show ('9' : Char).toNat < 128
    decide

theorem digitVal_digitChar (d : Nat) (h : d < 10) :
    digitVal (digitChar d) = d := by
  interval_cases d <;> rfl

theorem natChars_ne_nil (n : Nat) : natChars n ≠ [] := by
  unfold natChars
  split
  · simp
  · simp

theorem natChars_digits (n : Nat) : ∀ c ∈ natChars n, isDigitChar c = true := by
  induction n using Nat.strong_induction_on with
  | _ n ih =>
    unfold natChars
    split
    · intro c hc
      rw [List.mem_singleton] at hc
      subst hc
      exact digitChar_isDigit n
    · intro c hc
      rcases List.mem_append.mp hc with h | h
      · exact ih (n / 10) (Nat.div_lt_self (by omega) (by omega)) c h
      · rw [List.mem_singleton] at h
        subst h
        exact digitChar_isDigit (n % 10)

theorem natChars_ascii (n : Nat) : ∀ c ∈ natChars n, c.toNat < 128 := by
  induction n using Nat.strong_induction_on with
  | _ n ih =>
    unfold natChars
    split
    · intro c hc
      rw [List.mem_singleton] at hc
      subst hc
      exact digitChar_ascii n
    · intro c hc
      rcases List.mem_append.mp hc with h | h
      · exact ih (n / 10) (Nat.div_lt_self (by omega) (by omega)) c h
      · rw [List.mem_singleton] at h
        subst h
        exact digitChar_ascii (n % 10)

theorem digitsToNat_append (a : List Char) (c : Char) :
    digitsToNat (a ++ [c]) = digitsToNat a * 10 + digitVal c := by
  unfold digitsToNat
  rw [List.foldl_append]
  rfl

theorem digitsToNat_natChars (n : Nat) : digitsToNat (natChars n) = n := by
  induction n using Nat.strong_induction_on with
  | _ n ih =>
    unfold natChars
    split
    · next h =>
      show digitsToNat [digitChar n] = n
      unfold digitsToNat
      simp [digitVal_digitChar n h]
    · next h =>
      rw [digitsToNat_append, ih (n / 10) (Nat.div_lt_self (by omega) (by omega)),
        digitVal_digitChar (n % 10) (Nat.mod_lt _ (by omega))]
      omega

theorem takeDigits_spec (a rest : List Char)
    (ha : ∀ c ∈ a, isDigitChar c = true) (hrest : headNonDigit rest) :
    takeDigits (a ++ rest) = (a, rest) := by
  induction a with
  | nil =>
    match rest with
    | [] => rfl
    | c :: cs =>
      simp only [List.nil_append, takeDigits]
      rw [if_neg]
      rw [headNonDigit] at hrest
      simp [hrest]
  | cons c cs ih =>
    simp only [List.cons_append, takeDigits]
    rw [if_pos (ha c (List.mem_cons_self _ _))]
    simp [ih (fun x hx => ha x (List.mem_cons_of_mem _ hx))]

theorem parseNatTok_spec (n : Nat) (rest : List Char) (hrest : headNonDigit rest) :
    parseNatTok (natChars n ++ rest) = some (n, rest) := by
  unfold parseNatTok
  rw [takeDigits_spec _ _ (natChars_digits n) hrest]
  dsimp only
  rw [if_neg (by simpa using natChars_ne_nil n)]
  rw [digitsToNat_natChars]

/-- A string character this protocol may carry: ASCII, no quote, no
backslash (json.dumps would escape anything else; no emitted string
needs escaping). -/
def strOkChar (c : Char) : Bool :=
  decide (c.toNat < 128) && !(c = '"') && !(c = '\\')

/-- The encoding of `j` parses back to exactly `j` at any sufficient
fuel, for any continuation that does not extend a numeric literal. -/
def ParsesBack (j : JVal) : Prop :=
  ∀ fuel rest, (encJ j).length < fuel → headNonDigit rest →
    parseJ fuel (encJ j ++ rest) = some (j, rest)

/-- Everything `encJ` emits for `j` is ASCII. -/
def AsciiEnc (j : JVal) : Prop := ∀ c ∈ encJ j, c.toNat < 128

def Good (j : JVal) : Prop := ParsesBack j ∧ AsciiEnc j

theorem digit_not_space {c : Char} (h : isDigitChar c = true) : ¬ c = ' ' := by
  intro he; subst he; exact absurd h (by decide)

theorem digit_not_rbracket {c : Char} (h : isDigitChar c = true) : ¬ c = ']' := by
  intro he; subst he; exact absurd h (by decide)

theorem digit_not_rbrace {c : Char} (h : isDigitChar c = true) : ¬ c = rbraceChar := by
  intro he; subst he; exact absurd h (by decide)

theorem digit_not_comma {c : Char} (h : isDigitChar c = true) : ¬ c = ',' := by
  intro he; subst he; exact absurd h (by decide)

theorem skipSpaces_cons {c : Char} {cs : List Char} (h : ¬ c = ' ') :
    skipSpaces (c :: cs) = c :: cs := by
  unfold skipSpaces
  rw [List.dropWhile_cons]
  simp [h]

theorem skipSpaces_space (cs : List Char) : skipSpaces (' ' :: cs) = skipSpaces cs := by
  unfold skipSpaces
  rw [List.dropWhile_cons]
  simp

theorem parseJ_space (fuel : Nat) (cs : List Char) :
    parseJ (fuel + 1) (' ' :: cs) = parseJ (fuel + 1) cs := by
  show (match skipSpaces (' ' :: cs) with
    | [] => none
    | c :: r =>
      if isDigitChar c then (parseNatTok (c :: r)).map fun q => (.num (q.1 : Int), q.2)
      else if c = '-' then (parseNatTok r).map fun q => (.num (-(q.1 : Int)), q.2)
      else if c = '"' then (parseStrBody r).map fun q => (.str (String.mk q.1), q.2)
      else if c = '[' then parseElems fuel r
      else if c = lbraceChar then parseMems fuel r
      else
        match c :: r with
        | 'n' :: 'u' :: 'l' :: 'l' :: r2 => some (JVal.null, r2)
        | 't' :: 'r' :: 'u' :: 'e' :: r2 => some (JVal.bool true, r2)
        | 'f' :: 'a' :: 'l' :: 's' :: 'e' :: r2 => some (JVal.bool false, r2)
        | _ => none) = parseJ (fuel + 1) cs
  rw [skipSpaces_space]
  rfl

theorem parseStrBody_spec (a rest : List Char)
    (ha : ∀ c ∈ a, strOkChar c = true) :
    parseStrBody (a ++ '"' :: rest) = some (a, rest) := by
  induction a with
  | nil =>
    simp [parseStrBody]
  | cons c cs ih =>
    have hc := ha c (List.mem_cons_self _ _)
    have h1 : ¬ c = '"' := by
      intro he; subst he; exact absurd hc (by decide)
    have h2 : ¬ c = '\\' := by
      intro he; subst he; exact absurd hc (by decide)
    simp only [List.cons_append, parseStrBody]
    rw [if_neg h1, if_neg h2]
    simp [ih (fun x hx => ha x (List.mem_cons_of_mem _ hx))]

theorem parseJ_succ (fuel : Nat) (c : Char) (r : List Char) (hc : ¬ c = ' ') :
    parseJ (fuel + 1) (c :: r) =
      (if isDigitChar c then (parseNatTok (c :: r)).map fun q => (JVal.num (q.1 : Int), q.2)
      else if c = '-' then (parseNatTok r).map fun q => (JVal.num (-(q.1 : Int)), q.2)
      else if c = '"' then (parseStrBody r).map fun q => (JVal.str (String.mk q.1), q.2)
      else if c = '[' then parseElems fuel r
      else if c = lbraceChar then parseMems fuel r
      else
        match c :: r with
        | 'n' :: 'u' :: 'l' :: 'l' :: r2 => some (JVal.null, r2)
        | 't' :: 'r' :: 'u' :: 'e' :: r2 => some (JVal.bool true, r2)
        | 'f' :: 'a' :: 'l' :: 's' :: 'e' :: r2 => some (JVal.bool false, r2)
        | _ => none) := by
  conv => lhs; rw [parseJ]
  rw [skipSpaces_cons hc]

theorem strOkChar_ascii {c : Char} (h : strOkChar c = true) : c.toNat < 128 := by
  unfold strOkChar at h
  simp only [Bool.and_eq_true, decide_eq_true_eq] at h
  exact h.1.1

theorem Good_null : Good JVal.null := by
  constructor
  · intro fuel rest hlen hrest
    obtain ⟨f, rfl⟩ : ∃ f, fuel = f + 1 := ⟨fuel - 1, by omega⟩
    show parseJ (f + 1) ('n' :: ('u' :: 'l' :: 'l' :: rest)) = some (JVal.null, rest)
    rw [parseJ_succ f _ _ (by decide)]
    rfl
  · intro c hc
    simp only [encJ, List.mem_cons, List.not_mem_nil, or_false] at hc
    rcases hc with rfl | rfl | rfl | rfl <;> decide

theorem Good_bool (b : Bool) : Good (JVal.bool b) := by
  constructor
  · intro fuel rest hlen hrest
    obtain ⟨f, rfl⟩ : ∃ f, fuel = f + 1 := ⟨fuel - 1, by omega⟩
    cases b with
    | true =>
      show parseJ (f + 1) ('t' :: ('r' :: 'u' :: 'e' :: rest)) = some (JVal.bool true, rest)
      rw [parseJ_succ f _ _ (by decide)]
      rfl
    | false =>
      show parseJ (f + 1) ('f' :: ('a' :: 'l' :: 's' :: 'e' :: rest)) = some (JVal.bool false, rest)
      rw [parseJ_succ f _ _ (by decide)]
      rfl
  · cases b
    · show ∀ c ∈ encJ (JVal.bool false), c.toNat < 128
      decide
    · show ∀ c ∈ encJ (JVal.bool true), c.toNat < 128
      decide

theorem Good_num (n : Int) : Good (JVal.num n) := by
  constructor
  · intro fuel rest hlen hrest
    obtain ⟨f, rfl⟩ : ∃ f, fuel = f + 1 := ⟨fuel - 1, by omega⟩
    show parseJ (f + 1) (intChars n ++ rest) = some (JVal.num n, rest)
    unfold intChars
    by_cases hn : n < 0
    · rw [if_pos hn, List.cons_append, parseJ_succ f _ _ (by decide)]
      rw [if_neg (by decide : ¬ isDigitChar '-' = true), if_pos rfl,
        parseNatTok_spec _ _ hrest]
      simp only [Option.map_some']
      have h2 : -((n.natAbs : Int)) = n := by omega
      rw [h2]
    · rw [if_neg hn]
      obtain ⟨c, cs, hnc⟩ : ∃ c cs, natChars n.toNat = c :: cs := by
        cases h : natChars n.toNat with
        | nil => exact absurd h (natChars_ne_nil _)
        | cons c cs => exact ⟨c, cs, rfl⟩
      have hcdig : isDigitChar c = true :=
        natChars_digits _ c (by rw [hnc]; exact List.mem_cons_self _ _)
      rw [hnc, List.cons_append, parseJ_succ f _ _ (digit_not_space hcdig),
        if_pos hcdig, ← List.cons_append, ← hnc, parseNatTok_spec _ _ hrest]
      simp only [Option.map_some']
      have h2 : ((n.toNat : Nat) : Int) = n := by omega
      rw [h2]
  · intro c hc
    show c.toNat < 128
    unfold encJ intChars at hc
    split at hc
    · rcases List.mem_cons.mp hc with rfl | h
      · decide
      · exact natChars_ascii _ c h
    · exact natChars_ascii _ c hc

theorem Good_str (s : String) (hs : s.data.all strOkChar = true) :
    Good (JVal.str s) := by
  constructor
  · intro fuel rest hlen hrest
    obtain ⟨f, rfl⟩ : ∃ f, fuel = f + 1 := ⟨fuel - 1, by omega⟩
    show parseJ (f + 1) ('"' :: (s.data ++ ['"']) ++ rest) = some (JVal.str s, rest)
    rw [List.cons_append, parseJ_succ f _ _ (by decide),
      if_neg (by decide : ¬ isDigitChar '"' = true),
      if_neg (by decide : ¬ ('"' : Char) = '-'), if_pos rfl]
    rw [List.append_assoc, List.singleton_append,
      parseStrBody_spec s.data rest (fun c hc => List.all_eq_true.mp hs c hc)]
    rfl
  · intro c hc
    show c.toNat < 128
    unfold encJ at hc
    rcases List.mem_cons.mp hc with rfl | h
    · decide
    · rcases List.mem_append.mp h with h2 | h2
      · exact strOkChar_ascii (List.all_eq_true.mp hs c h2)
      · rw [List.mem_singleton] at h2
        subst h2
        decide

/-- The encoding of any JSON value is nonempty and starts with a
character that is neither a space nor a closing bracket. -/
theorem encJ_head (j : JVal) :
    ∃ c cs, encJ j = c :: cs ∧ (¬ c = ' ') ∧ (¬ c = ']') := by
  cases j with
  | null => exact ⟨'n', _, rfl, by decide, by decide⟩
  | bool b =>
    cases b with
    | true => exact ⟨'t', _, rfl, by decide, by decide⟩
    | false => exact ⟨'f', _, rfl, by decide, by decide⟩
  | num n =>
    show ∃ c cs, intChars n = c :: cs ∧ _
    unfold intChars
    by_cases hn : n < 0
    · rw [if_pos hn]
      exact ⟨'-', _, rfl, by decide, by decide⟩
    · rw [if_neg hn]
      obtain ⟨c, cs, hnc⟩ : ∃ c cs, natChars n.toNat = c :: cs := by
        cases h : natChars n.toNat with
        | nil => exact absurd h (natChars_ne_nil _)
        | cons c cs => exact ⟨c, cs, rfl⟩
      have hcdig : isDigitChar c = true :=
        natChars_digits _ c (by rw [hnc]; exact List.mem_cons_self _ _)
      exact ⟨c, cs, hnc, digit_not_space hcdig, digit_not_rbracket hcdig⟩
  | str s => exact ⟨'"', _, rfl, by decide, by decide⟩
  | arr l => exact ⟨'[', _, rfl, by decide, by decide⟩
  | obj l => exact ⟨lbraceChar, _, rfl, by decide, by decide⟩

/-- The `", "`-separated continuation of an element list. -/
def encElemsTail : List JVal → List Char
  | [] => []
  | x :: xs => ',' :: ' ' :: (encJ x ++ encElemsTail xs)

theorem encElems_cons (xs : List JVal) (x : JVal) :
    encElems (x :: xs) = encJ x ++ encElemsTail xs := by
  induction xs generalizing x with
  | nil => simp [encElems, encElemsTail]
  | cons y ys ih =>
    show encJ x ++ ',' :: ' ' :: encElems (y :: ys) = _
    rw [ih y]
    simp [encElemsTail]

theorem encElemsTail_headNonDigit (xs : List JVal) (rest : List Char) :
    headNonDigit (encElemsTail xs ++ ']' :: rest) := by
  cases xs with
  | nil => show isDigitChar ']' = false; decide
  | cons x xs => show isDigitChar ',' = false; decide

theorem parseElemsRest_succ (fuel : Nat) (c : Char) (r : List Char) (hc : ¬ c = ' ') :
    parseElemsRest (fuel + 1) (c :: r) =
      (if c = ']' then some ([], r)
      else if c = ',' then
        match parseJ fuel r with
        | none => none
        | some (v, r2) =>
          match parseElemsRest fuel r2 with
          | none => none
          | some (vs, r3) => some (v :: vs, r3)
      else none) := by
  conv => lhs; rw [parseElemsRest]
  rw [skipSpaces_cons hc]

theorem parseElems_succ (fuel : Nat) (c : Char) (r : List Char) (hc : ¬ c = ' ') :
    parseElems (fuel + 1) (c :: r) =
      (if c = ']' then some (.arr [], r)
      else
        match parseJ fuel (c :: r) with
        | none => none
        | some (v, r2) =>
          match parseElemsRest fuel r2 with
          | none => none
          | some (vs, r3) => some (.arr (v :: vs), r3)) := by
  conv => lhs; rw [parseElems]
  rw [skipSpaces_cons hc]

theorem parseElemsRest_spec (xs : List JVal) (hG : ∀ e ∈ xs, ParsesBack e) :
    ∀ fuel rest, (encElemsTail xs).length + 1 ≤ fuel →
      parseElemsRest fuel (encElemsTail xs ++ ']' :: rest) = some (xs, rest) := by
  induction xs with
  | nil =>
    intro fuel rest hf
    obtain ⟨f, rfl⟩ : ∃ f, fuel = f + 1 := ⟨fuel - 1, by omega⟩
    show parseElemsRest (f + 1) (']' :: rest) = some ([], rest)
    rw [parseElemsRest_succ f _ _ (by decide), if_pos rfl]
  | cons x xs ih =>
    intro fuel rest hf
    have hlen : (encElemsTail (x :: xs)).length
        = 2 + (encJ x).length + (encElemsTail xs).length := by
      simp [encElemsTail]
      omega
    obtain ⟨f2, rfl⟩ : ∃ f2, fuel = f2 + 2 := ⟨fuel - 2, by omega⟩
    show parseElemsRest (f2 + 1 + 1)
      ((',' :: ' ' :: (encJ x ++ encElemsTail xs)) ++ ']' :: rest) = _
    have harr : (',' :: ' ' :: (encJ x ++ encElemsTail xs)) ++ ']' :: rest
        = ',' :: (' ' :: (encJ x ++ (encElemsTail xs ++ ']' :: rest))) := by simp
    rw [harr, parseElemsRest_succ (f2 + 1) ',' _ (by decide),
      if_neg (by decide : ¬ (',' : Char) = ']'), if_pos rfl]
    rw [parseJ_space f2, hG x (List.mem_cons_self _ _) (f2 + 1) _
      (by omega) (encElemsTail_headNonDigit xs rest)]
    dsimp only
    rw [ih (fun e he => hG e (List.mem_cons_of_mem _ he)) (f2 + 1) rest (by omega)]

theorem Good_arr (l : List JVal) (hG : ∀ e ∈ l, Good e) : Good (.arr l) := by
  constructor
  · intro fuel rest hlen hrest
    obtain ⟨f, rfl⟩ : ∃ f, fuel = f + 1 := ⟨fuel - 1, by omega⟩
    show parseJ (f + 1) ('[' :: (encElems l ++ [']']) ++ rest) = some (.arr l, rest)
    have harr : '[' :: (encElems l ++ [']']) ++ rest
        = '[' :: (encElems l ++ (']' :: rest)) := by simp
    rw [harr, parseJ_succ f _ _ (by decide),
      if_neg (by decide : ¬ isDigitChar '[' = true),
      if_neg (by decide : ¬ ('[' : Char) = '-'),
      if_neg (by decide : ¬ ('[' : Char) = '"'), if_pos rfl]
    have hlen2 : (encJ (JVal.arr l)).length = 2 + (encElems l).length := by
      show ('[' :: (encElems l ++ [']'])).length = _
      simp
      omega
    cases l with
    | nil =>
      obtain ⟨f2, rfl⟩ : ∃ f2, f = f2 + 1 := ⟨f - 1, by omega⟩
      show parseElems (f2 + 1) (']' :: rest) = some (.arr [], rest)
      rw [parseElems_succ f2 _ _ (by decide), if_pos rfl]
    | cons x xs =>
      obtain ⟨f2, rfl⟩ : ∃ f2, f = f2 + 1 := ⟨f - 1, by omega⟩
      obtain ⟨c, cs, hx, hcsp, hcbr⟩ := encJ_head x
      have hlen3 : (encElems (x :: xs)).length
          = (encJ x).length + (encElemsTail xs).length := by
        rw [encElems_cons]; simp
      have harr2 : encElems (x :: xs) ++ ']' :: rest
          = c :: (cs ++ (encElemsTail xs ++ ']' :: rest)) := by
        rw [encElems_cons, hx]; simp
      rw [harr2, parseElems_succ f2 _ _ hcsp, if_neg hcbr]
      have harr3 : c :: (cs ++ (encElemsTail xs ++ ']' :: rest))
          = encJ x ++ (encElemsTail xs ++ ']' :: rest) := by
        rw [hx]; simp
      rw [harr3, (hG x (List.mem_cons_self _ _)).1 f2 _
        (by rw [hlen2] at hlen; rw [hlen3] at hlen; omega)
        (encElemsTail_headNonDigit xs rest)]
      dsimp only
      rw [parseElemsRest_spec xs (fun e he => (hG e (List.mem_cons_of_mem _ he)).1)
        f2 rest (by rw [hlen2] at hlen; rw [hlen3] at hlen; omega)]
  · intro c hc
    show c.toNat < 128
    have hTail : ∀ l2 : List JVal, (∀ e ∈ l2, AsciiEnc e) →
        ∀ c2 ∈ encElemsTail l2, c2.toNat < 128 := by
      intro l2
      induction l2 with
      | nil => intro _ c2 hc2; exact absurd hc2 (List.not_mem_nil _)
      | cons y ys ih =>
        intro hA c2 hc2
        rcases List.mem_cons.mp hc2 with rfl | hc2
        · decide
        · rcases List.mem_cons.mp hc2 with rfl | hc2
          · decide
          · rcases List.mem_append.mp hc2 with h | h
            · exact hA y (List.mem_cons_self _ _) c2 h
            · exact ih (fun e he => hA e (List.mem_cons_of_mem _ he)) c2 h
    rcases List.mem_cons.mp hc with rfl | hc
    · decide
    · rcases List.mem_append.mp hc with h | h
      · cases l with
        | nil => exact absurd h (List.not_mem_nil _)
        | cons x xs =>
          rw [encElems_cons] at h
          rcases List.mem_append.mp h with h2 | h2
          · exact (hG x (List.mem_cons_self _ _)).2 c h2
          · exact hTail xs (fun e he => (hG e (List.mem_cons_of_mem _ he)).2) c h2
      · rw [List.mem_singleton] at h
        subst h
        decide

/-- One encoded object member: quoted key, `": "`, value. -/
def encMem (kv : String × JVal) : List Char :=
  '"' :: (kv.1.data ++ '"' :: ':' :: ' ' :: encJ kv.2)

/-- The `", "`-separated continuation of a member list. -/
def encMemsTail : List (String × JVal) → List Char
  | [] => []
  | kv :: xs => ',' :: ' ' :: (encMem kv ++ encMemsTail xs)

theorem encMems_cons (xs : List (String × JVal)) (kv : String × JVal) :
    encMems (kv :: xs) = encMem kv ++ encMemsTail xs := by
  induction xs generalizing kv with
  | nil => simp [encMems, encMem, encMemsTail]
  | cons y ys ih =>
    show encMem kv ++ ',' :: ' ' :: encMems (y :: ys) = _
    rw [ih y]
    simp [encMemsTail]

theorem encMemsTail_headNonDigit (xs : List (String × JVal)) (rest : List Char) :
    headNonDigit (encMemsTail xs ++ rbraceChar :: rest) := by
  cases xs with
  | nil => show isDigitChar rbraceChar = false; decide
  | cons x xs => show isDigitChar ',' = false; decide

theorem parseMems_succ (fuel : Nat) (c : Char) (r : List Char) (hc : ¬ c = ' ') :
    parseMems (fuel + 1) (c :: r) =
      (if c = rbraceChar then some (.obj [], r)
      else if c = '"' then
        match parseMem fuel r with
        | none => none
        | some (kv, r2) =>
          match parseMemsRest fuel r2 with
          | none => none
          | some (kvs, r3) => some (.obj (kv :: kvs), r3)
      else none) := by
  conv => lhs; rw [parseMems]
  rw [skipSpaces_cons hc]

theorem parseMemsRest_succ (fuel : Nat) (c : Char) (r : List Char) (hc : ¬ c = ' ') :
    parseMemsRest (fuel + 1) (c :: r) =
      (if c = rbraceChar then some ([], r)
      else if c = ',' then
        match skipSpaces r with
        | '"' :: r2 =>
          match parseMem fuel r2 with
          | none => none
          | some (kv, r3) =>
            match parseMemsRest fuel r3 with
            | none => none
            | some (kvs, r4) => some (kv :: kvs, r4)
        | _ => none
      else none) := by
  conv => lhs; rw [parseMemsRest]
  rw [skipSpaces_cons hc]

theorem parseMem_spec (k : String) (v : JVal) (rest2 : List Char)
    (hk : k.data.all strOkChar = true) (hPB : ParsesBack v) :
    ∀ fuel, (encJ v).length + 1 < fuel → headNonDigit rest2 →
      parseMem fuel (k.data ++ ('"' :: ':' :: ' ' :: (encJ v ++ rest2)))
        = some ((k, v), rest2) := by
  intro fuel hf hrest
  obtain ⟨f2, rfl⟩ : ∃ f2, fuel = f2 + 2 := ⟨fuel - 2, by omega⟩
  show parseMem (f2 + 1 + 1) _ = _
  conv => lhs; rw [parseMem]
  rw [show k.data ++ ('"' :: ':' :: ' ' :: (encJ v ++ rest2))
      = k.data ++ '"' :: (':' :: ' ' :: (encJ v ++ rest2)) by simp]
  rw [parseStrBody_spec k.data _ (fun c hc => List.all_eq_true.mp hk c hc)]
  dsimp only
  rw [skipSpaces_cons (by decide : ¬ (':' : Char) = ' ')]
  show (match parseJ (f2 + 1) (' ' :: (encJ v ++ rest2)) with
    | none => none
    | some (v2, r3) => some ((String.mk k.data, v2), r3)) = some ((k, v), rest2)
  rw [parseJ_space f2, hPB (f2 + 1) rest2 (by omega) hrest]

theorem parseMemsRest_spec (xs : List (String × JVal))
    (hG : ∀ kv ∈ xs, kv.1.data.all strOkChar = true ∧ ParsesBack kv.2) :
    ∀ fuel rest, (encMemsTail xs).length + 1 ≤ fuel →
      parseMemsRest fuel (encMemsTail xs ++ rbraceChar :: rest) = some (xs, rest) := by
  induction xs with
  | nil =>
    intro fuel rest hf
    obtain ⟨f, rfl⟩ : ∃ f, fuel = f + 1 := ⟨fuel - 1, by omega⟩
    show parseMemsRest (f + 1) (rbraceChar :: rest) = some ([], rest)
    rw [parseMemsRest_succ f _ _ (by decide), if_pos rfl]
  | cons kv xs ih =>
    intro fuel rest hf
    have hlen : (encMemsTail (kv :: xs)).length
        = 2 + (encMem kv).length + (encMemsTail xs).length := by
      simp [encMemsTail]
      omega
    have hlenM : (encMem kv).length = 4 + kv.1.data.length + (encJ kv.2).length := by
      simp [encMem]
      omega
    obtain ⟨f2, rfl⟩ : ∃ f2, fuel = f2 + 2 := ⟨fuel - 2, by omega⟩
    show parseMemsRest (f2 + 1 + 1)
      ((',' :: ' ' :: (encMem kv ++ encMemsTail xs)) ++ rbraceChar :: rest) = _
    have harr : (',' :: ' ' :: (encMem kv ++ encMemsTail xs)) ++ rbraceChar :: rest
        = ',' :: (' ' :: (encMem kv ++ (encMemsTail xs ++ rbraceChar :: rest))) := by
      simp
    rw [harr, parseMemsRest_succ (f2 + 1) ',' _ (by decide),
      if_neg (by decide : ¬ (',' : Char) = rbraceChar), if_pos rfl,
      skipSpaces_space]
    have harr2 : encMem kv ++ (encMemsTail xs ++ rbraceChar :: rest)
        = '"' :: (kv.1.data ++ ('"' :: ':' :: ' ' ::
            (encJ kv.2 ++ (encMemsTail xs ++ rbraceChar :: rest)))) := by
      simp [encMem]
    rw [harr2, skipSpaces_cons (by decide : ¬ ('"' : Char) = ' ')]
    show (match parseMem (f2 + 1) (kv.1.data ++ ('"' :: ':' :: ' ' ::
        (encJ kv.2 ++ (encMemsTail xs ++ rbraceChar :: rest)))) with
      | none => none
      | some (kv2, r3) =>
        match parseMemsRest (f2 + 1) r3 with
        | none => none
        | some (kvs, r4) => some (kv2 :: kvs, r4)) = some (kv :: xs, rest)
    rw [parseMem_spec kv.1 kv.2 _ (hG kv (List.mem_cons_self _ _)).1
      (hG kv (List.mem_cons_self _ _)).2 (f2 + 1) (by omega)
      (encMemsTail_headNonDigit xs rest)]
    dsimp only
    rw [ih (fun e he => hG e (List.mem_cons_of_mem _ he)) (f2 + 1) rest (by omega)]

theorem Good_obj (l : List (String × JVal))
    (hG : ∀ kv ∈ l, kv.1.data.all strOkChar = true ∧ Good kv.2) :
    Good (.obj l) := by
  constructor
  · intro fuel rest hlen hrest
    obtain ⟨f, rfl⟩ : ∃ f, fuel = f + 1 := ⟨fuel - 1, by omega⟩
    show parseJ (f + 1) (lbraceChar :: (encMems l ++ [rbraceChar]) ++ rest)
      = some (.obj l, rest)
    have harr : lbraceChar :: (encMems l ++ [rbraceChar]) ++ rest
        = lbraceChar :: (encMems l ++ (rbraceChar :: rest)) := by simp
    rw [harr, parseJ_succ f _ _ (by decide),
      if_neg (by decide : ¬ isDigitChar lbraceChar = true),
      if_neg (by decide : ¬ lbraceChar = '-'),
      if_neg (by decide : ¬ lbraceChar = '"'),
      if_neg (by decide : ¬ lbraceChar = '['), if_pos rfl]
    have hlen2 : (encJ (JVal.obj l)).length = 2 + (encMems l).length := by
      show (lbraceChar :: (encMems l ++ [rbraceChar])).length = _
      simp
      omega
    cases l with
    | nil =>
      obtain ⟨f2, rfl⟩ : ∃ f2, f = f2 + 1 := ⟨f - 1, by omega⟩
      show parseMems (f2 + 1) (rbraceChar :: rest) = some (.obj [], rest)
      rw [parseMems_succ f2 _ _ (by decide), if_pos rfl]
    | cons kv xs =>
      obtain ⟨f2, rfl⟩ : ∃ f2, f = f2 + 1 := ⟨f - 1, by omega⟩
      have hlen3 : (encMems (kv :: xs)).length
          = (encMem kv).length + (encMemsTail xs).length := by
        rw [encMems_cons]; simp
      have hlenM : (encMem kv).length = 4 + kv.1.data.length + (encJ kv.2).length := by
        simp [encMem]
        omega
      have harr2 : encMems (kv :: xs) ++ rbraceChar :: rest
          = '"' :: (kv.1.data ++ ('"' :: ':' :: ' ' ::
              (encJ kv.2 ++ (encMemsTail xs ++ rbraceChar :: rest)))) := by
        rw [encMems_cons]
        simp [encMem]
      rw [harr2, parseMems_succ f2 _ _ (by decide),
        if_neg (by decide : ¬ ('"' : Char) = rbraceChar), if_pos rfl]
      rw [parseMem_spec kv.1 kv.2 _ (hG kv (List.mem_cons_self _ _)).1
        (hG kv (List.mem_cons_self _ _)).2.1 f2
        (by rw [hlen2] at hlen; rw [hlen3] at hlen; omega)
        (encMemsTail_headNonDigit xs rest)]
      dsimp only
      rw [parseMemsRest_spec xs
        (fun e he => ⟨(hG e (List.mem_cons_of_mem _ he)).1,
          (hG e (List.mem_cons_of_mem _ he)).2.1⟩)
        f2 rest (by rw [hlen2] at hlen; rw [hlen3] at hlen; omega)]
  · intro c hc
    show c.toNat < 128
    have hMem : ∀ kv : String × JVal, kv.1.data.all strOkChar = true → AsciiEnc kv.2 →
        ∀ c2 ∈ encMem kv, c2.toNat < 128 := by
      intro kv hk hA c2 hc2
      unfold encMem at hc2
      rcases List.mem_cons.mp hc2 with rfl | hc2
      · decide
      · rcases List.mem_append.mp hc2 with h | h
        · exact strOkChar_ascii (List.all_eq_true.mp hk c2 h)
        · rcases List.mem_cons.mp h with rfl | h
          · decide
          · rcases List.mem_cons.mp h with rfl | h
            · decide
            · rcases List.mem_cons.mp h with rfl | h
              · decide
              · exact hA c2 h
    have hTail : ∀ l2 : List (String × JVal),
        (∀ kv ∈ l2, kv.1.data.all strOkChar = true ∧ AsciiEnc kv.2) →
        ∀ c2 ∈ encMemsTail l2, c2.toNat < 128 := by
      intro l2
      induction l2 with
      | nil => intro _ c2 hc2; exact absurd hc2 (List.not_mem_nil _)
      | cons y ys ih =>
        intro hA c2 hc2
        rcases List.mem_cons.mp hc2 with rfl | hc2
        · decide
        · rcases List.mem_cons.mp hc2 with rfl | hc2
          · decide
          · rcases List.mem_append.mp hc2 with h | h
            · exact hMem y (hA y (List.mem_cons_self _ _)).1
                (hA y (List.mem_cons_self _ _)).2 c2 h
            · exact ih (fun e he => hA e (List.mem_cons_of_mem _ he)) c2 h
    rcases List.mem_cons.mp hc with rfl | hc
    · decide
    · rcases List.mem_append.mp hc with h | h
      · cases l with
        | nil => exact absurd h (List.not_mem_nil _)
        | cons kv xs =>
          rw [encMems_cons] at h
          rcases List.mem_append.mp h with h2 | h2
          · exact hMem kv (hG kv (List.mem_cons_self _ _)).1
              (hG kv (List.mem_cons_self _ _)).2.2 c h2
          · exact hTail xs
              (fun e he => ⟨(hG e (List.mem_cons_of_mem _ he)).1,
                (hG e (List.mem_cons_of_mem _ he)).2.2⟩) c h2
      · rw [List.mem_singleton] at h
        subst h
        decide

theorem json_loads_enc (j : JVal) (hG : Good j) : json_loads (encJ j) = some j := by
  unfold json_loads
  have h := hG.1 ((encJ j).length + 1) [] (by omega) trivial
  rw [List.append_nil] at h
  rw [h]
  rfl

/-! ## Bytes and framing (networking/protocol.py) -/

/-- `json_str.encode('utf-8')`; every emitted character is ASCII, where
UTF-8 is the identity on code points. -/
def utf8Encode (cs : List Char) : List Nat := cs.map Char.toNat

/-- `bytes.decode('utf-8')`, restricted to the ASCII range this protocol
emits; any non-ASCII byte is a decode failure. -/
def utf8Decode (bs : List Nat) : Option (List Char) :=
  if bs.all (fun b => b < 128) then some (bs.map Char.ofNat) else none

theorem utf8_roundtrip (cs : List Char) (h : ∀ c ∈ cs, c.toNat < 128) :
    utf8Decode (utf8Encode cs) = some cs := by
  unfold utf8Decode utf8Encode
  rw [if_pos]
  · rw [List.map_map]
    have : (Char.ofNat ∘ Char.toNat) = id := by
      funext c
      exact Char.ofNat_toNat c
    rw [this, List.map_id]
  · rw [List.all_eq_true]
    intro b hb
    obtain ⟨c, hc, rfl⟩ := List.mem_map.mp hb
    exact decide_eq_true (h c hc)

/-- `length.to_bytes(4, byteorder='big')`; lengths of 2^32 or more raise
OverflowError in Python, modelled as `none`. -/
def lenBytes4 (n : Nat) : Option (List Nat) :=
  if n < 4294967296 then
    some [n / 16777216 % 256, n / 65536 % 256, n / 256 % 256, n % 256]
  else none

/-- `int.from_bytes(length_bytes, byteorder='big')`. -/
def bytesToLen (bs : List Nat) : Nat := bs.foldl (fun a b => a * 256 + b) 0

theorem bytesToLen_lenBytes4 (n : Nat) (h : n < 4294967296) :
    lenBytes4 n = some [n / 16777216 % 256, n / 65536 % 256, n / 256 % 256, n % 256] ∧
    bytesToLen [n / 16777216 % 256, n / 65536 % 256, n / 256 % 256, n % 256] = n := by
  constructor
  · rw [lenBytes4, if_pos h]
  · show ((((0 * 256 + n / 16777216 % 256) * 256 + n / 65536 % 256) * 256
      + n / 256 % 256) * 256 + n % 256) = n
    omega

/-! ## Wire messages (networking/protocol.py) -/

/-- Python truthiness of the JSON values this protocol handles
(`if not state`, `data or {}`). -/
def JVal.isFalsy : JVal → Bool
  | .null => true
  | .bool b => !b
  | .num n => n = 0
  | .str s => s.isEmpty
  | .arr l => l.isEmpty
  | .obj l => l.isEmpty

/-- A GameMessage after construction.  The `type` field holds the
message's wire value (the MessageType enum's `.value` string, which is
what `to_json` emits and what `from_json` stores). -/
structure GameMessage where
  type : JVal
  player_id : JVal
  data : JVal
  timestamp : JVal

namespace MessageType

def CONNECT : JVal := .str "connect"

def CONNECTED : JVal := .str "connected"

def INPUT : JVal := .str "input"

def STATE_UPDATE : JVal := .str "state_update"

def LINE_CLEAR : JVal := .str "line_clear"

def GAME_OVER : JVal := .str "game_over"

def DISCONNECT : JVal := .str "disconnect"

def PING : JVal := .str "ping"

def PONG : JVal := .str "pong"

end MessageType

/-- GameMessage.__init__ plus the timestamp assignment:
`self.data = data or {}`, `self.timestamp` read from the clock (or, in
from_json, from the payload). -/
def GameMessage.make (t pid d ts : JVal) : GameMessage :=
  { type := t
    player_id := pid
    data := if d.isFalsy then .obj [] else d
    timestamp := ts }

/-- GameMessage.to_json: the four-field dict, in insertion order. -/
def GameMessage.to_json (m : GameMessage) : JVal :=
  .obj [("type", m.type), ("player_id", m.player_id),
        ("data", m.data), ("timestamp", m.timestamp)]

/-- GameMessage.to_bytes: 4-byte big-endian length prefix plus the UTF-8
payload. -/
def GameMessage.to_bytes (m : GameMessage) : Option (List Nat) :=
  let json_bytes := utf8Encode (encJ m.to_json)
  (lenBytes4 json_bytes.length).map fun hdr => hdr ++ json_bytes

/-- Python dict lookup `obj.get(k)` on the parsed object. -/
def jlookup (l : List (String × JVal)) (k : String) : Option JVal :=
  (l.find? fun kv => kv.1 == k).map fun kv => kv.2

/-- GameMessage.from_json: parse, then rebuild from the `type`,
`player_id`, `data` and `timestamp` entries; a missing `type` key
(KeyError) or a non-dict payload (TypeError, caught by the caller)
yields None; a missing timestamp defaults to the current clock `now`. -/
def GameMessage.from_json (now : JVal) (cs : List Char) : Option GameMessage :=
  match json_loads cs with
  | none => none
  | some (.obj l) =>
    match jlookup l "type" with
    | none => none
    | some t =>
      some (GameMessage.make t ((jlookup l "player_id").getD .null)
        ((jlookup l "data").getD (.obj [])) ((jlookup l "timestamp").getD now))
  | some _ => none

/-- GameMessage.receive_from_socket, with the socket's pending byte
stream explicit: read exactly 4 length bytes (short read fails), then
exactly `length` payload bytes looping over short chunks (stream
exhaustion fails), then decode. -/
def GameMessage.receive_from_socket (now : JVal) (stream : List Nat) :
    Option GameMessage :=
  let length_bytes := stream.take 4
  if length_bytes.length < 4 then none
  else
    let length := bytesToLen length_bytes
    let message_bytes := (stream.drop 4).take length
    if message_bytes.length < length then none
    else
      match utf8Decode message_bytes with
      | none => none
      | some chars => GameMessage.from_json now chars

/-- protocol.create_connect_message. -/
def create_connect_message (player_name : String) (now : JVal) : GameMessage :=
  GameMessage.make MessageType.CONNECT .null
    (.obj [("player_name", .str player_name)]) now

/-- protocol.create_connected_message. -/
def create_connected_message (player_id : JVal) (now : JVal) : GameMessage :=
  GameMessage.make MessageType.CONNECTED player_id .null now

/-- protocol.create_state_update_message. -/
def create_state_update_message (player_id : JVal) (game_state : JVal)
    (now : JVal) : GameMessage :=
  GameMessage.make MessageType.STATE_UPDATE player_id
    (.obj [("state", game_state)]) now

/-- protocol.create_game_over_message. -/
def create_game_over_message (player_id : JVal) (final_score : JVal)
    (now : JVal) : GameMessage :=
  GameMessage.make MessageType.GAME_OVER player_id
    (.obj [("score", final_score)]) now

/-! ## Engine snapshots (GameEngine.get_state) -/

/-- The serializable snapshot produced by GameEngine.get_state. -/
structure Snapshot where
  board : List (List (Option Color))
  score : Nat
  lines_cleared : Nat
  level : Nat
  game_over : Bool
  cp_type : Option PieceType
  cp_rotation : Nat
  cp_x : Int
  cp_y : Int
  next_pieces : List PieceType
  hold_piece : Option PieceType

/-- The one-letter piece type names used in snapshots. -/
def PieceType.name : PieceType → String
  | .I => "I" | .O => "O" | .T => "T" | .S => "S"
  | .Z => "Z" | .J => "J" | .L => "L"

/-- GameEngine.get_state as a Snapshot (board rows copied; the current
piece serialized as type/rotation/x/y with None type and rotation 0 when
absent). -/
def GameEngine.get_state (s : GameEngine) : Snapshot :=
  { board := s.board.map fun row => row
    score := s.score
    lines_cleared := s.lines_cleared
    level := s.level
    game_over := s.game_over
    cp_type := s.current_piece.map fun p => p.type
    cp_rotation := match s.current_piece with
      | some p => p.rotation
      | none => 0
    cp_x := s.piece_x
    cp_y := s.piece_y
    next_pieces := s.next_pieces.map fun p => p.type
    hold_piece := s.hold_piece.map fun p => p.type }

/-- A color tuple serializes to a JSON array of its components. -/
def colorJson (c : Color) : JVal := .arr [.num c.1, .num c.2.1, .num c.2.2]

/-- A board cell: null or the color array. -/
def cellJson : Option Color → JVal
  | none => .null
  | some c => colorJson c

/-- An optional piece type: its name string or null. -/
def optNameJson : Option PieceType → JVal
  | none => .null
  | some t => .str t.name

/-- The snapshot JSON, with keys in the dict insertion order of
GameEngine.get_state. -/
def snapJson (s : Snapshot) : JVal :=
  .obj [("board", .arr (s.board.map fun row => .arr (row.map cellJson))),
        ("score", .num s.score),
        ("lines_cleared", .num s.lines_cleared),
        ("level", .num s.level),
        ("game_over", .bool s.game_over),
        ("current_piece", .obj [("type", optNameJson s.cp_type),
                                ("rotation", .num s.cp_rotation),
                                ("x", .num s.cp_x),
                                ("y", .num s.cp_y)]),
        ("next_pieces", .arr (s.next_pieces.map fun t => .str t.name)),
        ("hold_piece", optNameJson s.hold_piece)]

theorem strOk_name (t : PieceType) : (PieceType.name t).data.all strOkChar = true := by
  cases t <;> decide

theorem Good_optName (o : Option PieceType) : Good (optNameJson o) := by
  cases o with
  | none => exact Good_null
  | some t => exact Good_str _ (strOk_name t)

theorem Good_color (c : Color) : Good (colorJson c) := by
  refine Good_arr _ ?_
  intro e he
  simp only [List.mem_cons, List.not_mem_nil, or_false] at he
  rcases he with rfl | rfl | rfl <;> exact Good_num _

theorem Good_cell (c : Option Color) : Good (cellJson c) := by
  cases c with
  | none => exact Good_null
  | some c => exact Good_color c

theorem Good_row (row : List (Option Color)) :
    Good (.arr (row.map cellJson)) := by
  refine Good_arr _ ?_
  intro e he
  obtain ⟨c, _, rfl⟩ := List.mem_map.mp he
  exact Good_cell c

theorem Good_snapJson (s : Snapshot) : Good (snapJson s) := by
  refine Good_obj _ ?_
  intro kv hkv
  simp only [snapJson, List.mem_cons, List.not_mem_nil, or_false] at hkv
  rcases hkv with rfl | rfl | rfl | rfl | rfl | rfl | rfl | rfl
  · refine ⟨(by decide : ("board" : String).data.all strOkChar = true), Good_arr _ ?_⟩
    intro e he
    obtain ⟨row, _, rfl⟩ := List.mem_map.mp he
    exact Good_row row
  · exact ⟨(by decide : ("score" : String).data.all strOkChar = true), Good_num _⟩
  · exact ⟨(by decide : ("lines_cleared" : String).data.all strOkChar = true), Good_num _⟩
  · exact ⟨(by decide : ("level" : String).data.all strOkChar = true), Good_num _⟩
  · exact ⟨(by decide : ("game_over" : String).data.all strOkChar = true), Good_bool _⟩
  · refine ⟨(by decide : ("current_piece" : String).data.all strOkChar = true),
      Good_obj _ ?_⟩
    intro kv2 hkv2
    simp only [List.mem_cons, List.not_mem_nil, or_false] at hkv2
    rcases hkv2 with rfl | rfl | rfl | rfl
    · exact ⟨(by decide : ("type" : String).data.all strOkChar = true), Good_optName _⟩
    · exact ⟨(by decide : ("rotation" : String).data.all strOkChar = true), Good_num _⟩
    · exact ⟨(by decide : ("x" : String).data.all strOkChar = true), Good_num _⟩
    · exact ⟨(by decide : ("y" : String).data.all strOkChar = true), Good_num _⟩
  · refine ⟨(by decide : ("next_pieces" : String).data.all strOkChar = true),
      Good_arr _ ?_⟩
    intro e he
    obtain ⟨t, _, rfl⟩ := List.mem_map.mp he
    exact Good_str _ (strOk_name t)
  · exact ⟨(by decide : ("hold_piece" : String).data.all strOkChar = true), Good_optName _⟩

theorem take4_cons (a b c d : Nat) (rest : List Nat) :
    (a :: b :: c :: d :: rest).take 4 = [a, b, c, d] := rfl

theorem drop4_cons (a b c d : Nat) (rest : List Nat) :
    (a :: b :: c :: d :: rest).drop 4 = rest := rfl

/-- A full frame (header computed from the payload length, then the
UTF-8 payload) delivered on the socket decodes back through
receive_from_socket to from_json of the payload. -/
theorem receive_frame (now : JVal) (payload : List Char)
    (hascii : ∀ c ∈ payload, c.toNat < 128)
    (hlen : payload.length < 4294967296) :
    GameMessage.receive_from_socket now
      ([(utf8Encode payload).length / 16777216 % 256,
        (utf8Encode payload).length / 65536 % 256,
        (utf8Encode payload).length / 256 % 256,
        (utf8Encode payload).length % 256] ++ utf8Encode payload)
      = GameMessage.from_json now payload := by
  have hb : (utf8Encode payload).length = payload.length := List.length_map _ _
  obtain ⟨hlb, hrt⟩ :=
    bytesToLen_lenBytes4 (utf8Encode payload).length (by omega)
  unfold GameMessage.receive_from_socket
  have hs : [(utf8Encode payload).length / 16777216 % 256,
      (utf8Encode payload).length / 65536 % 256,
      (utf8Encode payload).length / 256 % 256,
      (utf8Encode payload).length % 256] ++ utf8Encode payload
      = (utf8Encode payload).length / 16777216 % 256 ::
        (utf8Encode payload).length / 65536 % 256 ::
        (utf8Encode payload).length / 256 % 256 ::
        (utf8Encode payload).length % 256 :: utf8Encode payload := rfl
  rw [hs, take4_cons, drop4_cons]
  rw [if_neg (by simp : ¬ ([(utf8Encode payload).length / 16777216 % 256,
      (utf8Encode payload).length / 65536 % 256,
      (utf8Encode payload).length / 256 % 256,
      (utf8Encode payload).length % 256] : List Nat).length < 4)]
  rw [hrt]
  dsimp only
  rw [List.take_length]
  rw [if_neg (Nat.lt_irrefl _)]
  rw [utf8_roundtrip payload hascii]

/-! ## Claim C7: STATE_UPDATE round trip -/

/-- C7: for every engine snapshot (including a null hold piece and an
empty next-piece queue), encoding a STATE_UPDATE message carrying it to
a length-prefixed frame and decoding that frame succeeds, yields a
message whose kind is STATE_UPDATE, and reproduces the message — in
particular the carried snapshot structure — exactly.  The two
hypotheses record that the player id contains only unescaped ASCII (the
server-assigned `player_<n>` ids always do) and that the frame payload
fits the 4-byte length prefix (`int.to_bytes(4, ...)` raises
otherwise). -/
theorem C7_state_update_roundtrip (snap : Snapshot) (pid : String) (ts : Int)
    (now : JVal)
    (hpid : pid.data.all strOkChar = true)
    (hlen : (encJ (create_state_update_message (JVal.str pid) (snapJson snap)
      (JVal.num ts)).to_json).length < 4294967296) :
    ∃ bs : List Nat,
      (create_state_update_message (JVal.str pid) (snapJson snap)
        (JVal.num ts)).to_bytes = some bs ∧
      GameMessage.receive_from_socket now bs
        = some (create_state_update_message (JVal.str pid) (snapJson snap)
            (JVal.num ts)) ∧
      (create_state_update_message (JVal.str pid) (snapJson snap)
        (JVal.num ts)).type = MessageType.STATE_UPDATE ∧
      jlookup [("state", snapJson snap)] "state" = some (snapJson snap) := by
  have h1 : (create_state_update_message (JVal.str pid) (snapJson snap)
      (JVal.num ts)).to_json
      = JVal.obj [("type", JVal.str "state_update"), ("player_id", JVal.str pid),
          ("data", JVal.obj [("state", snapJson snap)]),
          ("timestamp", JVal.num ts)] := rfl
  have hGJ : Good (JVal.obj [("type", JVal.str "state_update"),
      ("player_id", JVal.str pid),
      ("data", JVal.obj [("state", snapJson snap)]),
      ("timestamp", JVal.num ts)]) := by
    refine Good_obj _ ?_
    intro kv hkv
    simp only [List.mem_cons, List.not_mem_nil, or_false] at hkv
    rcases hkv with rfl | rfl | rfl | rfl
    · exact ⟨(by decide : ("type" : String).data.all strOkChar = true),
        Good_str _ (by decide)⟩
    · exact ⟨(by decide : ("player_id" : String).data.all strOkChar = true),
        Good_str _ hpid⟩
    · refine ⟨(by decide : ("data" : String).data.all strOkChar = true),
        Good_obj _ ?_⟩
      intro kv2 hkv2
      simp only [List.mem_cons, List.not_mem_nil, or_false] at hkv2
      rcases hkv2 with rfl
      exact ⟨(by decide : ("state" : String).data.all strOkChar = true),
        Good_snapJson snap⟩
    · exact ⟨(by decide : ("timestamp" : String).data.all strOkChar = true),
        Good_num _⟩
  rw [h1] at hlen
  refine ⟨[(utf8Encode (encJ (JVal.obj [("type", JVal.str "state_update"),
      ("player_id", JVal.str pid),
      ("data", JVal.obj [("state", snapJson snap)]),
      ("timestamp", JVal.num ts)]))).length / 16777216 % 256,
    (utf8Encode (encJ (JVal.obj [("type", JVal.str "state_update"),
      ("player_id", JVal.str pid),
      ("data", JVal.obj [("state", snapJson snap)]),
      ("timestamp", JVal.num ts)]))).length / 65536 % 256,
    (utf8Encode (encJ (JVal.obj [("type", JVal.str "state_update"),
      ("player_id", JVal.str pid),
      ("data", JVal.obj [("state", snapJson snap)]),
      ("timestamp", JVal.num ts)]))).length / 256 % 256,
    (utf8Encode (encJ (JVal.obj [("type", JVal.str "state_update"),
      ("player_id", JVal.str pid),
      ("data", JVal.obj [("state", snapJson snap)]),
      ("timestamp", JVal.num ts)]))).length % 256]
    ++ utf8Encode (encJ (JVal.obj [("type", JVal.str "state_update"),
      ("player_id", JVal.str pid),
      ("data", JVal.obj [("state", snapJson snap)]),
      ("timestamp", JVal.num ts)])), ?_, ?_, rfl, rfl⟩
  · unfold GameMessage.to_bytes
    rw [h1]
    dsimp only
    rw [(bytesToLen_lenBytes4 (utf8Encode (encJ (JVal.obj
      [("type", JVal.str "state_update"), ("player_id", JVal.str pid),
       ("data", JVal.obj [("state", snapJson snap)]),
       ("timestamp", JVal.num ts)]))).length
      (by unfold utf8Encode; rw [List.length_map]; exact hlen)).1]
    rfl
  · rw [receive_frame now _ hGJ.2 hlen]
    unfold GameMessage.from_json
    rw [json_loads_enc _ hGJ]
    rfl

/-- The C7 edge-case snapshot: null hold piece and empty next-piece
queue. -/
def c7_snap : Snapshot where
  board := []
  score := 0
  lines_cleared := 0
  level := 1
  game_over := false
  cp_type := some PieceType.T
  cp_rotation := 0
  cp_x := 3
  cp_y := 0
  next_pieces := []
  hold_piece := none

set_option maxRecDepth 8192 in
set_option maxHeartbeats 2000000 in
/-- Witness for C7_state_update_roundtrip at the null-hold, empty-queue
snapshot. -/
theorem C7_state_update_roundtrip_witness :
    ∃ bs : List Nat,
      (create_state_update_message (JVal.str "player_1") (snapJson c7_snap)
        (JVal.num 0)).to_bytes = some bs ∧
      GameMessage.receive_from_socket JVal.null bs
        = some (create_state_update_message (JVal.str "player_1") (snapJson c7_snap)
            (JVal.num 0)) ∧
      (create_state_update_message (JVal.str "player_1") (snapJson c7_snap)
        (JVal.num 0)).type = MessageType.STATE_UPDATE ∧
      jlookup [("state", snapJson c7_snap)] "state" = some (snapJson c7_snap) :=
  C7_state_update_roundtrip c7_snap "player_1" 0 JVal.null (by decide)
    (by
      have hn0 : natChars 0 = ['0'] := by rw [natChars]; rfl
      have hn1 : natChars 1 = ['1'] := by rw [natChars]; rfl
      have hn3 : natChars 3 = ['3'] := by rw [natChars]; rfl
      have hi0 : intChars 0 = ['0'] := by rw [intChars]; simp [hn0]
      have hi1 : intChars 1 = ['1'] := by rw [intChars]; simp [hn1]
      have hi3 : intChars 3 = ['3'] := by rw [intChars]; simp [hn3]
      simp [create_state_update_message, GameMessage.make, GameMessage.to_json,
        JVal.isFalsy, snapJson, c7_snap, optNameJson, PieceType.name,
        MessageType.STATE_UPDATE, encJ, encElems, encMems, hi0, hi1, hi3])

/-! ## Peer client (networking/client.py) -/

/-- The client state relevant to sending: the assigned id, the connected
flag, and the cached opponent snapshot. -/
structure GameClient where
  player_id : JVal
  connected : Bool
  opponent_state : JVal

/-- GameClient.send_state_update: a no-op failure when not connected;
otherwise build the state-update message and write its byte frame
(`write_ok` models whether `socket.sendall(msg.to_bytes())` succeeds);
any exception on the send path returns failure AND marks the client
disconnected.  The message built and written is
`create_state_update_message c.player_id game_state now`. -/
def GameClient.send_state_update (c : GameClient) (_game_state _now : JVal)
    (write_ok : Bool) : GameClient × Bool :=
  if !c.connected then (c, false)
  else if write_ok then (c, true)
  else ({ c with connected := false }, false)

/-- GameClient.send_game_over: a no-op failure when not connected;
otherwise build the game-over message and write its byte frame.  Unlike
send_state_update, the exception handler only returns failure — it does
NOT clear the connected flag. -/
def GameClient.send_game_over (c : GameClient) (_final_score _now : JVal)
    (write_ok : Bool) : GameClient × Bool :=
  if !c.connected then (c, false)
  else if write_ok then (c, true)
  else (c, false)

/-! ## Claim C3: client send failure semantics -/

/-- C3 counterexample: a connected client whose socket write fails during
send_game_over gets a failure result but is NOT marked disconnected
(is_connected stays true), contradicting the claim that both send
operations mark the client disconnected on a write failure. -/
theorem C3_game_over_write_failure_keeps_connected :
    (GameClient.send_game_over ⟨JVal.str "player_1", true, JVal.null⟩
      (JVal.num 100) (JVal.num 0) false).2 = false ∧
    (GameClient.send_game_over ⟨JVal.str "player_1", true, JVal.null⟩
      (JVal.num 100) (JVal.num 0) false).1.connected = true := by
  constructor <;> rfl

/-- C3 (amended): both sends are no-op failures when not connected; a
write failure makes both return failure, but only send_state_update
marks the client disconnected — send_game_over leaves the connected
flag untouched. -/
theorem C3_send_failure_semantics (c : GameClient) (st sc now : JVal)
    (w : Bool) :
    (c.connected = false →
      c.send_state_update st now w = (c, false) ∧
      c.send_game_over sc now w = (c, false)) ∧
    (c.connected = true → w = false →
      (c.send_state_update st now w).2 = false ∧
      (c.send_state_update st now w).1.connected = false) ∧
    (c.connected = true → w = false →
      (c.send_game_over sc now w).2 = false ∧
      (c.send_game_over sc now w).1.connected = c.connected) := by
  refine ⟨?_, ?_, ?_⟩
  · intro h
    unfold GameClient.send_state_update GameClient.send_game_over
    rw [h]
    exact ⟨rfl, rfl⟩
  · intro h hw
    unfold GameClient.send_state_update
    rw [h, hw]
    exact ⟨rfl, rfl⟩
  · intro h hw
    unfold GameClient.send_game_over
    rw [h, hw]
    exact ⟨rfl, h⟩

/-- Witness for C3_send_failure_semantics: a connected client with a
failing write loses the connection flag through send_state_update, and a
disconnected client's sends are rejected unchanged. -/
theorem C3_send_failure_semantics_witness :
    (GameClient.send_state_update ⟨JVal.str "player_1", true, JVal.null⟩
      (JVal.num 1) (JVal.num 0) false).1.connected = false ∧
    GameClient.send_state_update ⟨JVal.str "player_1", false, JVal.null⟩
      (JVal.num 1) (JVal.num 0) true
      = (⟨JVal.str "player_1", false, JVal.null⟩, false) := by
  constructor
  · exact ((C3_send_failure_semantics ⟨JVal.str "player_1", true, JVal.null⟩
      (JVal.num 1) (JVal.num 1) (JVal.num 0) false).2.1 rfl rfl).2
  · exact ((C3_send_failure_semantics ⟨JVal.str "player_1", false, JVal.null⟩
      (JVal.num 1) (JVal.num 1) (JVal.num 0) true).1 rfl).1

/-! ## The LAN server (src/networking/server.py)

`GameServer.clients` is the keys of the `player_id -> socket` dict in
registration order; `player_states` is the `player_id -> game_state`
dict as an association list.  A relay is modelled as the list of
`(recipient, message)` pairs the broadcast loop would hand to
`client_socket.sendall(msg.to_bytes())`. -/

structure GameServer where
  clients : List String
  player_states : List (String × JVal)

/-- `message.type == MessageType.X.value`: Python compares the message's
type field with a string; a non-string field simply compares unequal. -/
def JVal.eqStr : JVal → String → Bool
  | .str s, t => s == t
  | _, _ => false

/-- `message.data.get(key)`: dict lookup with a `None` (here `.null`)
default.  Calling `.get` on a non-dict raises AttributeError in Python,
modelled as `none`. -/
def JVal.dictGet : JVal → String → Option JVal
  | .obj l, k => some ((jlookup l k).getD .null)
  | _, _ => none

/-- Python dict assignment `d[k] = v` on an association list: replace
the first binding of `k` in place, or append a new one. -/
def updA (l : List (String × JVal)) (k : String) (v : JVal) :
    List (String × JVal) :=
  match l with
  | [] => [(k, v)]
  | (k0, v0) :: rest => if k0 = k then (k, v) :: rest else (k0, v0) :: updA rest k v

/-- GameServer._broadcast_state_update: look up the sender's recorded
state; if it is missing or falsy (`if not state: return`) nothing is
sent, otherwise every client other than the sender is sent the frame of
`create_state_update_message(sending_player_id, state)`. -/
def GameServer.broadcast_state_update (s : GameServer) (sender : String)
    (now : JVal) : List (String × GameMessage) :=
  match s.player_states.lookup sender with
  | none => []
  | some state =>
    if state.isFalsy then []
    else (s.clients.filter (fun pid => pid != sender)).map
      (fun pid => (pid, create_state_update_message (.str sender) state now))

/-- GameServer._process_message: a STATE_UPDATE records
`message.data.get('state')` as the sender's state and broadcasts; a
GAME_OVER only logs `message.data.get('score', 0)`; any other type is
ignored.  `none` models the AttributeError raised when `message.data`
is not a dict (the exception aborts the client's handler loop). -/
def GameServer.process_message (s : GameServer) (player_id : String)
    (m : GameMessage) (now : JVal) :
    Option (GameServer × List (String × GameMessage)) :=
  if m.type.eqStr "state_update" then
    match m.data.dictGet "state" with
    | none => none
    | some st =>
      let s2 : GameServer :=
        { s with player_states := updA s.player_states player_id st }
      some (s2, s2.broadcast_state_update player_id now)
  else if m.type.eqStr "game_over" then
    match m.data.dictGet "score" with
    | none => none
    | some _ => some (s, [])
  else
    some (s, [])

/-- Assigning a key and looking it back up returns the assigned value. -/
theorem updA_lookup (l : List (String × JVal)) (k : String) (v : JVal) :
    (updA l k v).lookup k = some v := by
  induction l with
  | nil => simp [updA, List.lookup]
  | cons hd t ih =>
    obtain ⟨k0, v0⟩ := hd
    by_cases hk : k0 = k
    · simp [updA, hk, List.lookup]
    · simp only [updA, if_neg hk, List.lookup, ih]
      have hbeq : (k == k0) = false :=
        beq_eq_false_iff_ne.mpr fun h => hk h.symm
      rw [hbeq]

/-! ## Claims C6 and C10: server relay of state updates -/

/-- C6 (amended): when the server receives a STATE_UPDATE message whose
carried state value is truthy, it records that value as the sender's
snapshot and relays a message re-serialized with the sender's id to
every other registered connection and never back to the sender; a
GAME_OVER message is logged but relayed to no one and changes no server
state; a message of any other type causes no relay and no state change.
The original claim omitted the truthiness condition on the relay: a
falsy state is recorded but relayed to no one (see
C6_falsy_state_no_relay). -/
theorem C6_state_update_relay (s : GameServer) (sender : String)
    (m : GameMessage) (st now : JVal)
    (hty : m.type = MessageType.STATE_UPDATE)
    (hst : m.data.dictGet "state" = some st)
    (hfal : st.isFalsy = false) :
    ∃ s2 sends,
      s.process_message sender m now = some (s2, sends) ∧
      s2.clients = s.clients ∧
      s2.player_states.lookup sender = some st ∧
      sends = (s.clients.filter (fun pid => pid != sender)).map
        (fun pid => (pid, create_state_update_message (.str sender) st now)) ∧
      (∀ x, (sender, x) ∉ sends) ∧
      (∀ m2 : GameMessage, m2.type = MessageType.GAME_OVER →
        ∀ sc, m2.data.dictGet "score" = some sc →
          s.process_message sender m2 now = some (s, [])) ∧
      (∀ m2 : GameMessage, m2.type.eqStr "state_update" = false →
        m2.type.eqStr "game_over" = false →
          s.process_message sender m2 now = some (s, [])) := by
  refine ⟨{ s with player_states := updA s.player_states sender st },
    (s.clients.filter (fun pid => pid != sender)).map
      (fun pid => (pid, create_state_update_message (.str sender) st now)),
    ?_, rfl, updA_lookup _ _ _, rfl, ?_, ?_, ?_⟩
  · simp [GameServer.process_message, hty, MessageType.STATE_UPDATE,
      JVal.eqStr, hst, GameServer.broadcast_state_update, updA_lookup, hfal]
  · intro x hx
    rcases List.mem_map.mp hx with ⟨pid, hpid, heq⟩
    have h1 : (pid != sender) = true := (List.mem_filter.mp hpid).2
    have h2 : pid = sender := congrArg Prod.fst heq
    rw [h2] at h1
    simp at h1
  · intro m2 hty2 sc hsc
    simp [GameServer.process_message, hty2, MessageType.GAME_OVER,
      JVal.eqStr, hsc]
  · intro m2 h1 h2
    simp [GameServer.process_message, h1, h2]

/-- The 3-peer server of the C6 scenario. -/
def c6_server : GameServer :=
  ⟨["player_1", "player_2", "player_3"], []⟩

/-- The STATE_UPDATE message player_1 sends in the C6 scenario. -/
def c6_msg : GameMessage :=
  GameMessage.make MessageType.STATE_UPDATE (JVal.str "player_1")
    (JVal.obj [("state", JVal.str "snap")]) (JVal.num 0)

/-- Witness for C6_state_update_relay: with three connected peers, a
truthy STATE_UPDATE from player_1 is recorded and relayed; evaluating
the filter/map shows it reaches player_2 and player_3 only. -/
theorem C6_state_update_relay_witness :
    ∃ s2 sends,
      GameServer.process_message c6_server "player_1" c6_msg (JVal.num 0)
        = some (s2, sends) ∧
      s2.clients = c6_server.clients ∧
      s2.player_states.lookup "player_1" = some (JVal.str "snap") ∧
      sends = (c6_server.clients.filter (fun pid => pid != "player_1")).map
        (fun pid => (pid, create_state_update_message (.str "player_1")
          (JVal.str "snap") (JVal.num 0))) ∧
      (∀ x, ("player_1", x) ∉ sends) ∧
      (∀ m2 : GameMessage, m2.type = MessageType.GAME_OVER →
        ∀ sc, m2.data.dictGet "score" = some sc →
          GameServer.process_message c6_server "player_1" m2 (JVal.num 0)
            = some (c6_server, [])) ∧
      (∀ m2 : GameMessage, m2.type.eqStr "state_update" = false →
        m2.type.eqStr "game_over" = false →
          GameServer.process_message c6_server "player_1" m2 (JVal.num 0)
            = some (c6_server, [])) :=
  C6_state_update_relay c6_server "player_1" c6_msg (JVal.str "snap")
    (JVal.num 0) rfl rfl rfl

/-- C6 counterexample for the unamended claim: a STATE_UPDATE whose
state value is the empty string (falsy) is recorded as the sender's
snapshot but relayed to NO other peer — `_broadcast_state_update`
returns early on `if not state`, so player_2 receives nothing. -/
theorem C6_falsy_state_no_relay :
    GameServer.process_message ⟨["player_1", "player_2"], []⟩ "player_1"
      (GameMessage.make MessageType.STATE_UPDATE (JVal.str "player_1")
        (JVal.obj [("state", JVal.str "")]) (JVal.num 0)) (JVal.num 0)
      = some (⟨["player_1", "player_2"], [("player_1", JVal.str "")]⟩, []) :=
  rfl

/-- C10: a STATE_UPDATE whose data map has no state entry (dict .get
yields None, here `.null`) or whose state value is falsy still records
that value as the sender's last-known snapshot, but relays nothing:
the broadcast step sends to the other connections only when the
recorded snapshot is truthy. -/
theorem C10_falsy_state_recorded_not_relayed (s : GameServer)
    (sender : String) (m : GameMessage) (st now : JVal)
    (hty : m.type = MessageType.STATE_UPDATE)
    (hst : m.data.dictGet "state" = some st)
    (hfal : st.isFalsy = true) :
    s.process_message sender m now
      = some ({ s with player_states := updA s.player_states sender st }, []) ∧
    (updA s.player_states sender st).lookup sender = some st ∧
    (∀ s3 : GameServer, s3.broadcast_state_update sender now ≠ [] →
      ∃ st3, s3.player_states.lookup sender = some st3 ∧
        st3.isFalsy = false) := by
  refine ⟨?_, updA_lookup _ _ _, ?_⟩
  · simp [GameServer.process_message, hty, MessageType.STATE_UPDATE,
      JVal.eqStr, hst, GameServer.broadcast_state_update, updA_lookup, hfal]
  · intro s3 hne
    unfold GameServer.broadcast_state_update at hne
    cases hl : s3.player_states.lookup sender with
    | none => simp [hl] at hne
    | some st3 =>
      refine ⟨st3, rfl, ?_⟩
      cases hf : st3.isFalsy with
      | false => rfl
      | true => simp [hl, hf] at hne

/-- The server of the C10 scenario: two registered peers, player_2
already has a recorded snapshot. -/
def c10_server : GameServer :=
  ⟨["player_1", "player_2"], [("player_2", JVal.num 7)]⟩

/-- The STATE_UPDATE message of the C10 scenario: its data dict has no
state entry, so `data.get('state')` yields None. -/
def c10_msg : GameMessage :=
  GameMessage.make MessageType.STATE_UPDATE (JVal.str "player_1")
    (JVal.obj [("score", JVal.num 3)]) (JVal.num 0)

/-- Witness for C10_falsy_state_recorded_not_relayed: the missing state
entry is recorded as null for player_1 and player_2 is sent nothing. -/
theorem C10_falsy_state_recorded_not_relayed_witness :
    GameServer.process_message c10_server "player_1" c10_msg (JVal.num 0)
      = some ({ c10_server with player_states := updA c10_server.player_states "player_1" JVal.null }, []) ∧
    (updA c10_server.player_states "player_1" JVal.null).lookup "player_1"
      = some JVal.null ∧
    (∀ s3 : GameServer,
      s3.broadcast_state_update "player_1" (JVal.num 0) ≠ [] →
      ∃ st3, s3.player_states.lookup "player_1" = some st3 ∧
        st3.isFalsy = false) :=
  C10_falsy_state_recorded_not_relayed c10_server "player_1" c10_msg
    JVal.null (JVal.num 0) rfl rfl rfl
